import Mathlib

/-!
Verification of the buffered block file I/O layer of
`src/e2fsprogs/lib/ext2fs/fileio.c` (a struct `ext2_file` handle offering
read/write/seek/flush/truncate over a block-mapped file).

The functions of `fileio.c` are embedded shallowly and faithfully below
(`ext2fs_file_flush`, `sync_buffer_position`, `load_buffer`,
`ext2fs_file_read`, `ext2fs_file_write`, `ext2fs_file_llseek`,
`ext2fs_file_get_lsize`, `ext2fs_file_get_size`,
`ext2fs_file_zero_past_offset`, `ext2fs_file_set_size2`).  The external
collaborators consumed through narrow interfaces (Block Mapper
`ext2fs_bmap2`, Block Channel `io_channel_read_blk64` /
`io_channel_write_blk64`, inode service `ext2fs_write_inode`, punch
service `ext2fs_punch`, superblock helpers) are not part of the reviewed
source; they are modelled from the specification's interface contracts
and carry `Modelled from the spec:` doc comments.  The model threads an
explicit state and injects collaborator failures through configurable
error tables so that error-path behaviour is expressible.
-/

namespace Fileio

/-- Error code returned on a magic-number check failure (`EXT2_CHECK_MAGIC`).
The exact numeric values of the error codes are immaterial; they are kept
distinct and nonzero, matching the convention that 0 means success. -/
def EXT2_ET_MAGIC_EXT2_FILE : Nat := 2133571330

/-- Error code for opening a file for write on a read-only filesystem. -/
def EXT2_ET_RO_FILSYS : Nat := 2133571395

/-- Error code for writing through a handle not opened for writing. -/
def EXT2_ET_FILE_RO : Nat := 2133571402

/-- Error code for a size beyond the addressable block range. -/
def EXT2_ET_FILE_TOO_BIG : Nat := 2133571404

/-- Error code for an unknown seek mode. -/
def EXT2_ET_INVALID_ARGUMENT : Nat := 2133571398

/-- Error code for reading an out-of-range inode number (inode 0). -/
def EXT2_ET_BAD_INODE_NUM : Nat := 2133571333

/-- Modelled from the spec: configuration of the external collaborators.
`s_log_block_size` determines the block size (`EXT2_BLOCK_SIZE`), and the
three error tables inject failures of the Block Channel and of the Block
Mapper's allocating mode (0 means the call succeeds), so that the spec's
"propagated storage/mapping errors surfaced verbatim" are expressible.
`max_file_block` is the largest addressable logical block index used by
`ext2fs_file_block_offset_too_big`. -/
structure IoCfg where
  s_log_block_size : Nat
  max_file_block : Nat
  io_read_err : Nat → Nat
  io_write_err : Nat → Nat
  bmap_alloc_err : Nat → Nat

/-- The inode snapshot held by the handle (`struct ext2_inode`): the split
64-bit size (`i_size` holds the low 32 bits, `i_size_high` the high bits),
the mode, and the block-mapping metadata.  The mapping itself
(`logical block → physical block`, 0 meaning hole) and the
uninitialized-region flags live in the inode on the real system; they are
modelled from the spec's Block Mapper contract. -/
structure Ext2Inode where
  i_size : Nat
  i_size_high : Nat
  i_mode : Nat
  mapping : Nat → Nat
  uninit : Nat → Bool

/-- Modelled from the spec: the filesystem context (`ext2_filsys`): the
read/write flag, the large-file feature flag and revision level of the
superblock, the superblock-dirty marker, the Block Mapper's allocation
state (`nextAlloc`: all mapped physical blocks are ≤ `nextAlloc`, a fresh
allocation returns `nextAlloc + 1`), the Block Channel's disk contents
(`disk p i` = byte `i` of physical block `p`), the on-disk inode table,
and a log of punch (deallocation) calls used to observe when block
deallocation occurs. -/
structure Ext2Filsys where
  cfg : IoCfg
  flag_rw : Bool
  feature_large_file : Bool
  s_rev_level : Nat
  super_dirty : Bool
  nextAlloc : Nat
  disk : Nat → Nat → Nat
  inodes : Nat → Ext2Inode
  punchLog : List (Nat × Nat × Nat)

/-- Block size in bytes, `EXT2_BLOCK_SIZE` = `1024 << s_log_block_size`;
`fs->blocksize` always equals `2 ^ EXT2_BLOCK_SIZE_BITS` with
`EXT2_BLOCK_SIZE_BITS = s_log_block_size + 10`, so the C right shift by
`EXT2_BLOCK_SIZE_BITS` is division by `blocksize`. -/
def Ext2Filsys.blocksize (fs : Ext2Filsys) : Nat :=
  2 ^ (fs.cfg.s_log_block_size + 10)

/-- The bits of `file->flags`: the open-mode bits `EXT2_FILE_WRITE` and
`EXT2_FILE_CREATE` (kept by `EXT2_FILE_MASK` at open time) and the cache
bits `EXT2_FILE_BUF_VALID` and `EXT2_FILE_BUF_DIRTY`, modelled as named
booleans. -/
structure FileFlags where
  write : Bool
  create : Bool
  buf_valid : Bool
  buf_dirty : Bool

/-- The per-handle state `struct ext2_file`: magic number, owning inode
number, inode snapshot, open/cache flags, byte cursor `pos`, cached
logical block `blockno`, cached physical block `physblock` (0 = hole),
and the one-block cache slab `buf` (byte index → byte; only indices below
the block size are meaningful). -/
structure Ext2File where
  magic : Nat
  ino : Nat
  inode : Ext2Inode
  flags : FileFlags
  pos : Nat
  blockno : Nat
  physblock : Nat
  buf : Nat → Nat

/-- The full mutable state threaded through every operation: the
filesystem context plus the open file handle. -/
structure St where
  fs : Ext2Filsys
  file : Ext2File

/-- EXT2_I_SIZE: the 64-bit logical file size,
`i_size | (i_size_high << 32)`; since `i_size` is a 32-bit field
(`i_size < 2^32` is an invariant maintained by `ext2fs_file_set_size2`,
which stores `size & 0xffffffff`), the bitwise or equals addition. -/
def EXT2_I_SIZE (i : Ext2Inode) : Nat :=
  i.i_size + i.i_size_high * 2 ^ 32

/-- LINUX_S_ISREG: the mode denotes a regular file. -/
def LINUX_S_ISREG (mode : Nat) : Bool :=
  mode &&& 0xF000 == 0x8000

/-- Modelled from the spec: `ext2fs_needs_large_file_feature` — a file
size beyond the legacy (signed) 32-bit limit requires the filesystem-wide
large-file feature flag. -/
def ext2fs_needs_large_file_feature (size : Nat) : Bool :=
  size ≥ 0x80000000

/-- Modelled from the spec: `ext2fs_file_block_offset_too_big` — the
target logical block index exceeds the maximum offset representable by
the filesystem's block mapping. -/
def ext2fs_file_block_offset_too_big (fs : Ext2Filsys) (_inode : Ext2Inode)
    (blk : Nat) : Bool :=
  blk > fs.cfg.max_file_block

/-- Modelled from the spec: `ext2fs_update_dynamic_rev` upgrades a
good-old-rev (0) superblock to the dynamic revision. -/
def ext2fs_update_dynamic_rev (fs : Ext2Filsys) : Ext2Filsys :=
  if fs.s_rev_level = 0 then { fs with s_rev_level := 1 } else fs

/-- Modelled from the spec: `ext2fs_mark_super_dirty` marks the
filesystem metadata dirty. -/
def ext2fs_mark_super_dirty (fs : Ext2Filsys) : Ext2Filsys :=
  { fs with super_dirty := true }

/-- Modelled from the spec: the Block Mapper
`resolve(logical_block, allocate, workspace) → (physical_block, flags)`.
With `alloc = false` it returns the current mapping of the logical block
(0 denotes a hole) without side effects.  With `alloc = true` it returns
the existing mapping if nonzero, and otherwise either fails with the
injected allocation error or allocates the fresh physical block
`nextAlloc + 1` (guaranteed nonzero), persisting the new mapping into the
supplied inode snapshot.  When no inode snapshot is supplied (the
`zero_past_offset` call site passes NULL), the mapper reads the on-disk
inode itself; reading inode number 0 fails, as `ext2fs_read_inode`
rejects it.  The returned boolean models the `BMAP_RET_UNINIT` flag. -/
def ext2fs_bmap2 (fs : Ext2Filsys) (ino : Nat) (inodeArg : Option Ext2Inode)
    (alloc : Bool) (block : Nat) :
    Except Nat (Ext2Filsys × Ext2Inode × Bool × Nat) :=
  match inodeArg with
  | some inode =>
    if inode.mapping block ≠ 0 then
      .ok (fs, inode, inode.uninit block, inode.mapping block)
    else if ¬ alloc then
      .ok (fs, inode, inode.uninit block, 0)
    else if fs.cfg.bmap_alloc_err block ≠ 0 then
      .error (fs.cfg.bmap_alloc_err block)
    else
      .ok ({ fs with nextAlloc := fs.nextAlloc + 1 },
           { inode with
             mapping := fun l => if l = block then fs.nextAlloc + 1
                                 else inode.mapping l },
           false, fs.nextAlloc + 1)
  | none =>
    if ino = 0 then .error EXT2_ET_BAD_INODE_NUM
    else
      let inode := fs.inodes ino
      if inode.mapping block ≠ 0 then
        .ok (fs, inode, inode.uninit block, inode.mapping block)
      else if ¬ alloc then
        .ok (fs, inode, inode.uninit block, 0)
      else if fs.cfg.bmap_alloc_err block ≠ 0 then
        .error (fs.cfg.bmap_alloc_err block)
      else
        .ok ({ fs with nextAlloc := fs.nextAlloc + 1 },
             { inode with
               mapping := fun l => if l = block then fs.nextAlloc + 1
                                   else inode.mapping l },
             false, fs.nextAlloc + 1)

/-- Modelled from the spec: the Block Channel `read_block(physical_block)`
— reads one block-sized unit, or fails with the injected channel error. -/
def io_channel_read_blk64 (fs : Ext2Filsys) (blk : Nat) :
    Except Nat (Nat → Nat) :=
  if fs.cfg.io_read_err blk ≠ 0 then .error (fs.cfg.io_read_err blk)
  else .ok (fs.disk blk)

/-- Modelled from the spec: the Block Channel
`write_block(physical_block, bytes)` — overwrites one block-sized unit,
or fails with the injected channel error leaving the disk unchanged. -/
def io_channel_write_blk64 (fs : Ext2Filsys) (blk : Nat) (buf : Nat → Nat) :
    Except Nat Ext2Filsys :=
  if fs.cfg.io_write_err blk ≠ 0 then .error (fs.cfg.io_write_err blk)
  else .ok { fs with disk := fun b => if b = blk then buf else fs.disk b }

/-- Modelled from the spec: the inode service `write_inode(id, snapshot)`
persists the snapshot into the on-disk inode table. -/
def ext2fs_write_inode (fs : Ext2Filsys) (ino : Nat) (inode : Ext2Inode) :
    Except Nat Ext2Filsys :=
  .ok { fs with inodes := fun i => if i = ino then inode else fs.inodes i }

/-- Modelled from the spec: the deallocation service
`punch(inode, snapshot, start_block, end_block)` releases the logical
block range, clearing its mappings; the call is recorded in `punchLog` so
that theorems can observe exactly when deallocation occurs. -/
def ext2fs_punch (fs : Ext2Filsys) (ino : Nat) (inode : Ext2Inode)
    (startBlk endBlk : Nat) : Except Nat (Ext2Filsys × Ext2Inode) :=
  .ok ({ fs with punchLog := (ino, startBlk, endBlk) :: fs.punchLog },
       { inode with
         mapping := fun l => if startBlk ≤ l ∧ l ≤ endBlk then 0
                             else inode.mapping l })

/-- ext2fs_file_open2: validates that write/create is not requested on a
read-only filesystem, then builds a fresh handle (cursor 0, cache
invalid and clean); with no explicit inode snapshot the inode is fetched
from disk (which fails for inode number 0). -/
def ext2fs_file_open2 (fs : Ext2Filsys) (ino : Nat)
    (inodeArg : Option Ext2Inode) (wantWrite wantCreate : Bool) :
    Except Nat Ext2File :=
  if (wantWrite ∨ wantCreate) ∧ ¬ fs.flag_rw then .error EXT2_ET_RO_FILSYS
  else if inodeArg.isNone ∧ ino = 0 then .error EXT2_ET_BAD_INODE_NUM
  else
    .ok { magic := EXT2_ET_MAGIC_EXT2_FILE,
          ino := ino,
          inode := match inodeArg with
                   | some i => i
                   | none => fs.inodes ino,
          flags := { write := wantWrite, create := wantCreate,
                     buf_valid := false, buf_dirty := false },
          pos := 0,
          blockno := 0,
          physblock := 0,
          buf := fun _ => 0 }

/-- ext2fs_file_flush: no-op unless the cache is both valid and dirty;
otherwise, if the cached physical block is still 0, resolve it through
the Block Mapper — in allocating mode exactly when the inode number is
nonzero (`file->ino ? BMAP_ALLOC : 0`) — then write the slab to that
physical block through the Block Channel and clear the dirty flag.  Any
mapper or channel error is returned with the state as left at that
point (dirty still set). -/
def ext2fs_file_flush (st : St) : Nat × St :=
  if st.file.magic ≠ EXT2_ET_MAGIC_EXT2_FILE then
    (EXT2_ET_MAGIC_EXT2_FILE, st)
  else if ¬ (st.file.flags.buf_valid ∧ st.file.flags.buf_dirty) then (0, st)
  else
    match (if st.file.physblock = 0 then
             ext2fs_bmap2 st.fs st.file.ino (some st.file.inode)
               (st.file.ino ≠ 0) st.file.blockno
           else .ok (st.fs, st.file.inode, false, st.file.physblock)) with
    | .error e => (e, st)
    | .ok (fs1, inode1, _, phys) =>
      let st1 : St := ⟨fs1, { st.file with inode := inode1, physblock := phys }⟩
      match io_channel_write_blk64 st1.fs st1.file.physblock st1.file.buf with
      | .error e => (e, st1)
      | .ok fs2 =>
        (0, ⟨fs2, { st1.file with
                    flags := { st1.file.flags with buf_dirty := false } }⟩)

/-- sync_buffer_position: computes the logical block implied by the
cursor; if it differs from the cached block, flushes the cache (aborting
on a flush error) and invalidates it; finally adopts the new block
index. -/
def sync_buffer_position (st : St) : Nat × St :=
  let b := st.file.pos / st.fs.blocksize
  if b ≠ st.file.blockno then
    match ext2fs_file_flush st with
    | (r, st1) =>
      if r ≠ 0 then (r, st1)
      else (0, ⟨st1.fs, { st1.file with
                          flags := { st1.file.flags with buf_valid := false },
                          blockno := b }⟩)
  else (0, ⟨st.fs, { st.file with blockno := b }⟩)

/-- load_buffer: no-op if the cache is valid; otherwise resolves the
physical block of the cached logical block through the Block Mapper
(non-allocating) and, unless `dontfill` is set, fills the slab — from the
Block Channel if a physical block exists, with zeroes if the block is a
hole — and marks the cache valid. -/
def load_buffer (st : St) (dontfill : Bool) : Nat × St :=
  if ¬ st.file.flags.buf_valid then
    match ext2fs_bmap2 st.fs st.file.ino (some st.file.inode) false
            st.file.blockno with
    | .error e => (e, st)
    | .ok (fs1, inode1, _, phys) =>
      let f1 := { st.file with inode := inode1, physblock := phys }
      if ¬ dontfill then
        if phys ≠ 0 then
          match io_channel_read_blk64 fs1 phys with
          | .error e => (e, ⟨fs1, f1⟩)
          | .ok blkdata =>
            (0, ⟨fs1, { f1 with
                        buf := blkdata,
                        flags := { f1.flags with buf_valid := true } }⟩)
        else
          (0, ⟨fs1, { f1 with
                      buf := fun _ => 0,
                      flags := { f1.flags with buf_valid := true } }⟩)
      else
        (0, ⟨fs1, { f1 with flags := { f1.flags with buf_valid := true } }⟩)
  else (0, st)

/-- The loop body of ext2fs_file_read, recursing on a fuel bound.  Each
iteration while `pos < EXT2_I_SIZE ∧ wanted > 0`: sync the cache
position, load the buffer (full fill), compute the in-block offset and
the chunk `c` capped by the remaining wanted bytes and by the bytes left
to end-of-file, copy `c` bytes out of the slab, advance the cursor, and
continue with `wanted - c`.  Since every iteration moves at least one
byte, fuel `wanted` makes the fuel bound unreachable; errors abort with
the bytes accumulated so far. -/
def readLoop : Nat → St → Nat → List Nat → Nat × St × List Nat
  | 0, st, _, acc => (0, st, acc)
  | Nat.succ fuel, st, wanted, acc =>
    if st.file.pos < EXT2_I_SIZE st.file.inode ∧ 0 < wanted then
      match sync_buffer_position st with
      | (r1, st1) =>
        if r1 ≠ 0 then (r1, st1, acc)
        else
          match load_buffer st1 false with
          | (r2, st2) =>
            if r2 ≠ 0 then (r2, st2, acc)
            else
              let bs := st2.fs.blocksize
              let start := st2.file.pos % bs
              let c0 := bs - start
              let c1 := if c0 > wanted then wanted else c0
              let left := EXT2_I_SIZE st2.file.inode - st2.file.pos
              let c := if c1 > left then left else c1
              let chunk := (List.range c).map fun i => st2.file.buf (start + i)
              readLoop fuel ⟨st2.fs, { st2.file with pos := st2.file.pos + c }⟩
                (wanted - c) (acc ++ chunk)
    else (0, st, acc)

/-- ext2fs_file_read: checks the magic number, then runs the read loop;
the result is the error code (0 on success), the final state, and the
bytes copied to the caller (their count is the `*got` out-parameter,
which the fail label always assigns). -/
def ext2fs_file_read (st : St) (wanted : Nat) : Nat × St × List Nat :=
  if st.file.magic ≠ EXT2_ET_MAGIC_EXT2_FILE then
    (EXT2_ET_MAGIC_EXT2_FILE, st, [])
  else readLoop wanted st wanted []

/-- ext2fs_file_llseek: sets the cursor from the start, relative to the
current position, or from end-of-file; no bounds clamping.  An unknown
mode fails with the invalid-argument error.  Returns the resulting
cursor (the `*ret_pos` out-parameter, `none` when not assigned). -/
def ext2fs_file_llseek (st : St) (offset whence : Nat) :
    Nat × St × Option Nat :=
  if st.file.magic ≠ EXT2_ET_MAGIC_EXT2_FILE then
    (EXT2_ET_MAGIC_EXT2_FILE, st, none)
  else if whence = 0 then
    (0, ⟨st.fs, { st.file with pos := offset }⟩, some offset)
  else if whence = 1 then
    (0, ⟨st.fs, { st.file with pos := st.file.pos + offset }⟩,
     some (st.file.pos + offset))
  else if whence = 2 then
    (0, ⟨st.fs, { st.file with pos := EXT2_I_SIZE st.file.inode + offset }⟩,
     some (EXT2_I_SIZE st.file.inode + offset))
  else (EXT2_ET_INVALID_ARGUMENT, st, none)

/-- ext2fs_file_get_lsize: the exact 64-bit size from the inode snapshot,
or the magic error code for an invalid handle (the out-parameter is not
assigned in that case, hence the `Except`). -/
def ext2fs_file_get_lsize (st : St) : Except Nat Nat :=
  if st.file.magic ≠ EXT2_ET_MAGIC_EXT2_FILE then
    .error EXT2_ET_MAGIC_EXT2_FILE
  else .ok (EXT2_I_SIZE st.file.inode)

/-- ext2fs_file_get_size: the narrow 32-bit size accessor; returns 0 when
`get_lsize` fails (invalid handle) and when the 64-bit size has nonzero
high bits (`size >> 32 ≠ 0`), otherwise the size itself. -/
def ext2fs_file_get_size (st : St) : Nat :=
  match ext2fs_file_get_lsize st with
  | .error _ => 0
  | .ok size => if size / 2 ^ 32 ≠ 0 then 0 else size

/-- ext2fs_file_zero_past_offset: zeroes the bytes of the last block past
`offset` on disk.  A no-op when `offset` is block aligned; otherwise it
syncs the cache position, asks the Block Mapper (NULL inode snapshot,
non-allocating) for the block containing `offset`, and — when that block
exists and is not flagged uninitialized — read-modify-writes it through
the Block Channel, zeroing from the in-block offset to the end of the
block. -/
def ext2fs_file_zero_past_offset (st : St) (offset : Nat) : Nat × St :=
  let bs := st.fs.blocksize
  let off := offset % bs
  if off = 0 then (0, st)
  else
    match sync_buffer_position st with
    | (r1, st1) =>
      if r1 ≠ 0 then (r1, st1)
      else
        match ext2fs_bmap2 st1.fs st1.file.ino none false (offset / bs) with
        | .error e => (e, st1)
        | .ok (fs2, _, retUninit, blk) =>
          let st2 : St := ⟨fs2, st1.file⟩
          if blk = 0 ∨ retUninit then (0, st2)
          else
            match io_channel_read_blk64 st2.fs blk with
            | .error e => (e, st2)
            | .ok b =>
              match io_channel_write_blk64 st2.fs blk
                      (fun i => if off ≤ i ∧ i < bs then 0 else b i) with
              | .error e => (e, st2)
              | .ok fs3 => (0, ⟨fs3, st2.file⟩)

/-- The large-file feature step of ext2fs_file_set_size2: when the inode
is a regular file whose recorded size (`EXT2_I_SIZE`, read *before* the
size fields are updated) needs the large-file feature and the feature is
absent or the revision is good-old, the feature flag is set, the
revision upgraded, and the superblock marked dirty; otherwise the
filesystem is untouched. -/
def set_size2_large_file_step (fs : Ext2Filsys) (inode : Ext2Inode) :
    Ext2Filsys :=
  if LINUX_S_ISREG inode.i_mode ∧
     ext2fs_needs_large_file_feature (EXT2_I_SIZE inode) ∧
     (¬ fs.feature_large_file ∨ fs.s_rev_level = 0) then
    ext2fs_mark_super_dirty
      (ext2fs_update_dynamic_rev { fs with feature_large_file := true })
  else fs

/-- ext2fs_file_set_size2: checks the magic number; fails with the
too-big error when the last block of the target size is not addressable;
computes the old and new block counts (ceiling division, the shift by
`EXT2_BLOCK_SIZE_BITS`); sets the large-file feature (with dynamic-rev
upgrade and superblock dirtying) when the inode is a regular file whose
*currently recorded* size needs it and the feature is absent or the
revision is good-old; stores the split size fields; persists the inode
when the inode number is nonzero; zeroes the tail of the last retained
block; and finally, only when the new block count is strictly smaller
than the old, punches the range from the new block count through the
maximum addressable block (`~0ULL`). -/
def ext2fs_file_set_size2 (st : St) (size : Nat) : Nat × St :=
  if st.file.magic ≠ EXT2_ET_MAGIC_EXT2_FILE then
    (EXT2_ET_MAGIC_EXT2_FILE, st)
  else if size ≠ 0 ∧ ext2fs_file_block_offset_too_big st.fs st.file.inode
      ((size - 1) / st.fs.blocksize) then
    (EXT2_ET_FILE_TOO_BIG, st)
  else
    let bs := st.fs.blocksize
    let truncateBlock := (size + bs - 1) / bs
    let oldSize := EXT2_I_SIZE st.file.inode
    let oldTruncate := (oldSize + bs - 1) / bs
    let fsA := set_size2_large_file_step st.fs st.file.inode
    let f1 := { st.file with
                inode := { st.file.inode with
                           i_size := size % 2 ^ 32,
                           i_size_high := size / 2 ^ 32 } }
    let stA : St := ⟨fsA, f1⟩
    match (if stA.file.ino ≠ 0 then
             ext2fs_write_inode stA.fs stA.file.ino stA.file.inode
           else .ok stA.fs) with
    | .error e => (e, stA)
    | .ok fsB =>
      let stB : St := ⟨fsB, stA.file⟩
      match ext2fs_file_zero_past_offset stB size with
      | (r2, stC) =>
        if r2 ≠ 0 then (r2, stC)
        else if truncateBlock ≥ oldTruncate then (0, stC)
        else
          match ext2fs_punch stC.fs stC.file.ino stC.file.inode
                  truncateBlock (2 ^ 64 - 1) with
          | .error e => (e, stC)
          | .ok (fsD, inodeD) =>
            (0, ⟨fsD, { stC.file with inode := inodeD }⟩)

/-- ext2fs_file_set_size: the narrow wrapper, delegating to
ext2fs_file_set_size2. -/
def ext2fs_file_set_size (st : St) (size : Nat) : Nat × St :=
  ext2fs_file_set_size2 st size

/-- The loop body of ext2fs_file_write, recursing on a fuel bound.  Each
iteration while bytes remain: sync the cache position; compute the
in-block offset and the chunk size `c` (bounded by the remaining bytes
and the block capacity); call load_buffer with `dontfill` true exactly
when the chunk fills the entire block (`c == fs->blocksize`); if the
cached physical block is still 0, resolve it through the Block Mapper in
allocating mode exactly when the inode number is nonzero
(`file->ino ? BMAP_ALLOC : 0`); mark the cache dirty; copy the chunk
into the slab; advance the cursor, the data pointer (modelled by
`List.drop`) and the transferred count.  Since every iteration moves at
least one byte, fuel `data.length` makes the fuel bound unreachable;
errors abort with the count so far. -/
def writeLoop : Nat → St → List Nat → Nat → Nat × St × Nat
  | 0, st, _, count => (0, st, count)
  | Nat.succ fuel, st, data, count =>
    if 0 < data.length then
      match sync_buffer_position st with
      | (r1, st1) =>
        if r1 ≠ 0 then (r1, st1, count)
        else
          let bs := st1.fs.blocksize
          let start := st1.file.pos % bs
          let c0 := bs - start
          let c := if c0 > data.length then data.length else c0
          match load_buffer st1 (c == bs) with
          | (r2, st2) =>
            if r2 ≠ 0 then (r2, st2, count)
            else
              match (if st2.file.physblock = 0 then
                       ext2fs_bmap2 st2.fs st2.file.ino (some st2.file.inode)
                         (st2.file.ino ≠ 0) st2.file.blockno
                     else .ok (st2.fs, st2.file.inode, false,
                               st2.file.physblock)) with
              | .error e => (e, st2, count)
              | .ok (fs3, inode3, _, phys3) =>
                let f3 := { st2.file with
                            inode := inode3, physblock := phys3,
                            flags := { st2.file.flags with buf_dirty := true },
                            buf := fun i =>
                              if start ≤ i ∧ i < start + c then
                                data.getD (i - start) 0
                              else st2.file.buf i,
                            pos := st2.file.pos + c }
                writeLoop fuel ⟨fs3, f3⟩ (data.drop c) (count + c)
    else (0, st, count)

/-- ext2fs_file_write: checks the magic number and fails with the
file-read-only error when the handle lacks the write flag — both early
returns happen before the fail label, so the `*written` out-parameter is
not assigned on them, modelled by `none`.  Otherwise runs the write loop
and then, when at least one byte was transferred and the cursor exceeds
the recorded size, extends the size to the cursor through
ext2fs_file_set_size2; the resize error is kept only when the loop
itself returned 0. -/
def ext2fs_file_write (st : St) (data : List Nat) : Nat × St × Option Nat :=
  if st.file.magic ≠ EXT2_ET_MAGIC_EXT2_FILE then
    (EXT2_ET_MAGIC_EXT2_FILE, st, none)
  else if ¬ st.file.flags.write then (EXT2_ET_FILE_RO, st, none)
  else
    match writeLoop data.length st data 0 with
    | (retval, st1, count) =>
      if count ≠ 0 ∧ EXT2_I_SIZE st1.file.inode < st1.file.pos then
        match ext2fs_file_set_size2 st1 st1.file.pos with
        | (rc, st2) => ((if retval = 0 then rc else retval), st2, some count)
      else (retval, st1, some count)

/-! ## Abstraction: logical file contents, reachable-state invariants -/

/-- The byte the handle's view assigns to byte `i` of logical block `l`:
the cache slab masks the disk for the cached block while the cache is
valid; otherwise the byte comes from the mapped physical block, and a
hole reads as zero. -/
def blockByte (st : St) (l i : Nat) : Nat :=
  if st.file.flags.buf_valid = true ∧ l = st.file.blockno then st.file.buf i
  else if st.file.inode.mapping l ≠ 0 then
    st.fs.disk (st.file.inode.mapping l) i
  else 0

/-- The logical byte at offset `o` of the file, as observable through the
handle (cache first, then mapping and disk). -/
def fileByte (st : St) (o : Nat) : Nat :=
  blockByte st (o / st.fs.blocksize) (o % st.fs.blocksize)

/-- The collaborators are configured not to fail: every Block Channel
read and write and every allocating Block Mapper call succeeds. -/
def NoErrs (cfg : IoCfg) : Prop :=
  (∀ b, cfg.io_read_err b = 0) ∧ (∀ b, cfg.io_write_err b = 0) ∧
  (∀ b, cfg.bmap_alloc_err b = 0)

/-- Well-formedness of a handle state, maintained by the operations and
holding for every state reachable through the interface: the magic
number is right; distinct logical blocks are mapped to distinct physical
blocks; every mapped physical block is within the allocator bound (so
fresh allocations are really fresh); a valid cache knows the physical
block of its logical block; a valid *clean* cache slab agrees with the
backing store; and the low size field fits 32 bits. -/
structure Inv (st : St) : Prop where
  magic : st.file.magic = EXT2_ET_MAGIC_EXT2_FILE
  mapInj : ∀ l m, st.file.inode.mapping l ≠ 0 →
    st.file.inode.mapping l = st.file.inode.mapping m → l = m
  mapLe : ∀ l, st.file.inode.mapping l ≤ st.fs.nextAlloc
  physOk : st.file.flags.buf_valid = true →
    st.file.physblock = st.file.inode.mapping st.file.blockno
  bufClean : st.file.flags.buf_valid = true →
    st.file.flags.buf_dirty = false →
    st.file.buf = (if st.file.inode.mapping st.file.blockno ≠ 0 then
                     st.fs.disk (st.file.inode.mapping st.file.blockno)
                   else fun _ => 0)
  sizeLow : st.file.inode.i_size < 2 ^ 32

/-- Scalar state components that the cache-management operations (flush,
sync, load, the read loop, the write loop, zero-past-offset) never
modify. -/
structure Keeps (st st' : St) : Prop where
  cfg : st'.fs.cfg = st.fs.cfg
  inodes : st'.fs.inodes = st.fs.inodes
  punchLog : st'.fs.punchLog = st.fs.punchLog
  rw : st'.fs.flag_rw = st.fs.flag_rw
  feature : st'.fs.feature_large_file = st.fs.feature_large_file
  rev : st'.fs.s_rev_level = st.fs.s_rev_level
  sdirty : st'.fs.super_dirty = st.fs.super_dirty
  ino : st'.file.ino = st.file.ino
  magic : st'.file.magic = st.file.magic
  wflag : st'.file.flags.write = st.file.flags.write
  isize : st'.file.inode.i_size = st.file.inode.i_size
  isizeHigh : st'.file.inode.i_size_high = st.file.inode.i_size_high
  imode : st'.file.inode.i_mode = st.file.inode.i_mode
  iuninit : st'.file.inode.uninit = st.file.inode.uninit

theorem Keeps.refl (st : St) : Keeps st st :=
  ⟨rfl, rfl, rfl, rfl, rfl, rfl, rfl, rfl, rfl, rfl, rfl, rfl, rfl, rfl⟩

theorem Keeps.trans {s1 s2 s3 : St} (h1 : Keeps s1 s2) (h2 : Keeps s2 s3) :
    Keeps s1 s3 :=
  ⟨h2.cfg.trans h1.cfg, h2.inodes.trans h1.inodes,
   h2.punchLog.trans h1.punchLog, h2.rw.trans h1.rw,
   h2.feature.trans h1.feature, h2.rev.trans h1.rev,
   h2.sdirty.trans h1.sdirty, h2.ino.trans h1.ino,
   h2.magic.trans h1.magic, h2.wflag.trans h1.wflag,
   h2.isize.trans h1.isize, h2.isizeHigh.trans h1.isizeHigh,
   h2.imode.trans h1.imode, h2.iuninit.trans h1.iuninit⟩

theorem Keeps.blocksize {st st' : St} (h : Keeps st st') :
    st'.fs.blocksize = st.fs.blocksize := by
  unfold Ext2Filsys.blocksize; rw [h.cfg]

theorem Keeps.size_eq {st st' : St} (h : Keeps st st') :
    EXT2_I_SIZE st'.file.inode = EXT2_I_SIZE st.file.inode := by
  unfold EXT2_I_SIZE; rw [h.isize, h.isizeHigh]

theorem blocksize_pos (fs : Ext2Filsys) : 0 < fs.blocksize :=
  Nat.pos_pow_of_pos _ (by norm_num)

theorem blockByte_cached (st : St) (l i : Nat)
    (hv : st.file.flags.buf_valid = true) (hl : l = st.file.blockno) :
    blockByte st l i = st.file.buf i := by
  unfold blockByte; rw [if_pos ⟨hv, hl⟩]

theorem blockByte_uncached (st : St) (l i : Nat)
    (h : ¬ (st.file.flags.buf_valid = true ∧ l = st.file.blockno)) :
    blockByte st l i =
      if st.file.inode.mapping l ≠ 0 then
        st.fs.disk (st.file.inode.mapping l) i
      else 0 := by
  unfold blockByte; rw [if_neg h]

/-- Specification of ext2fs_file_flush on a well-formed state of a
handle attached to a real inode, with collaborators that do not fail:
the flush succeeds, preserves the logical file contents and the
invariants, does not move the cursor, the cached block or the slab, and
leaves a valid cache clean. -/
theorem flush_ok (st : St) (hI : Inv st) (hE : NoErrs st.fs.cfg)
    (hino : st.file.ino ≠ 0) :
    ∃ st', ext2fs_file_flush st = (0, st') ∧ Inv st' ∧ Keeps st st' ∧
      (∀ o, fileByte st' o = fileByte st o) ∧
      st'.file.pos = st.file.pos ∧
      st'.file.blockno = st.file.blockno ∧
      st'.file.buf = st.file.buf ∧
      st'.file.flags.buf_valid = st.file.flags.buf_valid ∧
      (st'.file.flags.buf_valid = true → st'.file.flags.buf_dirty = false) ∧
      (∀ l, l ≠ st.file.blockno →
        st'.file.inode.mapping l = st.file.inode.mapping l) ∧
      (∀ l, st.file.inode.mapping l ≠ 0 →
        st'.file.inode.mapping l = st.file.inode.mapping l) ∧
      (st.file.physblock ≠ 0 → st'.file.inode = st.file.inode) ∧
      (¬ (st.file.flags.buf_valid = true ∧ st.file.flags.buf_dirty = true) →
        st' = st) := by
  obtain ⟨hR, hW, hA⟩ := hE
  by_cases hvd : st.file.flags.buf_valid = true ∧ st.file.flags.buf_dirty = true
  · -- the cache is valid and dirty: the slab is written out
    obtain ⟨hv, hd⟩ := hvd
    by_cases hp : st.file.physblock = 0
    · -- hole: the mapper allocates a fresh physical block first
      have hm0 : st.file.inode.mapping st.file.blockno = 0 := by
        have := hI.physOk hv; rw [hp] at this; exact this.symm
      refine ⟨⟨{ st.fs with
                 nextAlloc := st.fs.nextAlloc + 1,
                 disk := fun b => if b = st.fs.nextAlloc + 1 then st.file.buf
                                  else st.fs.disk b },
               { st.file with
                 inode := { st.file.inode with
                            mapping := fun l => if l = st.file.blockno then
                                st.fs.nextAlloc + 1
                              else st.file.inode.mapping l },
                 physblock := st.fs.nextAlloc + 1,
                 flags := { st.file.flags with buf_dirty := false } }⟩,
             ?_, ?_, ?_, ?_, rfl, rfl, rfl, rfl, fun _ => rfl, ?_, ?_,
             fun h => absurd hp h, fun h => absurd ⟨hv, hd⟩ h⟩
      · unfold ext2fs_file_flush ext2fs_bmap2 io_channel_write_blk64
        simp [hI.magic, hv, hd, hp, hm0, hA, hW, hino]
      · refine ⟨hI.magic, ?_, ?_, fun _ => by simp, ?_, hI.sizeLow⟩
        · intro l m hl hlm
          have hlel := hI.mapLe l
          have hlem := hI.mapLe m
          by_cases h1 : l = st.file.blockno <;>
            by_cases h2 : m = st.file.blockno <;>
              simp only [h1, h2, if_pos, if_neg, ite_true, ite_false] at hl hlm <;>
                first
                  | omega
                  | exact hI.mapInj l m hl hlm
        · intro l
          have := hI.mapLe l
          by_cases h1 : l = st.file.blockno <;> simp [h1] <;> omega
        · intro _ _
          simp
      · exact ⟨rfl, rfl, rfl, rfl, rfl, rfl, rfl, rfl, rfl, rfl, rfl, rfl,
               rfl, rfl⟩
      · intro o
        unfold fileByte blockByte Ext2Filsys.blocksize
        simp only
        by_cases hl : o / 2 ^ (st.fs.cfg.s_log_block_size + 10) = st.file.blockno
        · simp [hl, hv]
        · have hne : st.file.inode.mapping
              (o / 2 ^ (st.fs.cfg.s_log_block_size + 10)) ≠
              st.fs.nextAlloc + 1 := by
            have := hI.mapLe (o / 2 ^ (st.fs.cfg.s_log_block_size + 10))
            omega
          simp only [hv, true_and, if_neg hl, hl, ite_false]
          split <;> simp [hne]
      · intro l hlne
        simp [hlne]
      · intro l hl
        have hlb : l ≠ st.file.blockno := fun h => hl (h ▸ hm0)
        simp [hlb]
    · -- already mapped: the slab is written to the recorded physical block
      have hmb : st.file.inode.mapping st.file.blockno = st.file.physblock :=
        (hI.physOk hv).symm
      refine ⟨⟨{ st.fs with
                 disk := fun b => if b = st.file.physblock then st.file.buf
                                  else st.fs.disk b },
               { st.file with
                 flags := { st.file.flags with buf_dirty := false } }⟩,
             ?_, ?_, ?_, ?_, rfl, rfl, rfl, rfl, fun _ => rfl,
             fun _ _ => rfl, fun _ _ => rfl, fun _ => rfl,
             fun h => absurd ⟨hv, hd⟩ h⟩
      · unfold ext2fs_file_flush io_channel_write_blk64
        simp [hI.magic, hv, hd, hp, hW]
      · refine ⟨hI.magic, hI.mapInj, hI.mapLe, fun _ => hI.physOk hv, ?_,
          hI.sizeLow⟩
        intro _ _
        simp [hmb, hp]
      · exact ⟨rfl, rfl, rfl, rfl, rfl, rfl, rfl, rfl, rfl, rfl, rfl, rfl,
               rfl, rfl⟩
      · intro o
        unfold fileByte blockByte Ext2Filsys.blocksize
        simp only
        by_cases hl : o / 2 ^ (st.fs.cfg.s_log_block_size + 10) = st.file.blockno
        · simp [hl, hv]
        · have hne : st.file.inode.mapping
              (o / 2 ^ (st.fs.cfg.s_log_block_size + 10)) ≠
              st.file.physblock := by
            intro hcontra
            rw [← hmb] at hcontra
            by_cases hz : st.file.inode.mapping
                (o / 2 ^ (st.fs.cfg.s_log_block_size + 10)) = 0
            · rw [hz] at hcontra; exact hp (hmb ▸ hcontra.symm)
            · exact hl (hI.mapInj _ _ hz hcontra)
          simp only [hv, true_and, if_neg hl, hl, ite_false]
          split <;> simp [hne]
  · -- no-op branch: the cache is not both valid and dirty
    refine ⟨st, ?_, hI, Keeps.refl st, fun _ => rfl, rfl, rfl, rfl, rfl, ?_,
            fun _ _ => rfl, fun _ _ => rfl, fun _ => rfl, fun _ => rfl⟩
    · unfold ext2fs_file_flush
      rw [if_neg (by simp [hI.magic]), if_pos]
      intro hcontra
      exact hvd ⟨by simpa using hcontra.1, by simpa using hcontra.2⟩
    · intro hv
      by_cases h : st.file.flags.buf_dirty = true
      · exact absurd ⟨hv, h⟩ hvd
      · simpa using h

/-- Specification of sync_buffer_position on a well-formed state with
non-failing collaborators and a nonzero inode number: it succeeds,
preserves the logical contents and the invariants, keeps the cursor, and
adopts the cursor's block as the cached block; when the cursor has not
left the cached block the state is completely unchanged. -/
theorem sync_ok (st : St) (hI : Inv st) (hE : NoErrs st.fs.cfg)
    (hino : st.file.ino ≠ 0) :
    ∃ st', sync_buffer_position st = (0, st') ∧ Inv st' ∧ Keeps st st' ∧
      (∀ o, fileByte st' o = fileByte st o) ∧
      st'.file.pos = st.file.pos ∧
      st'.file.blockno = st.file.pos / st.fs.blocksize ∧
      (∀ l, l ≠ st.file.blockno →
        st'.file.inode.mapping l = st.file.inode.mapping l) ∧
      (st.file.pos / st.fs.blocksize = st.file.blockno → st' = st) ∧
      (∀ l, st.file.inode.mapping l ≠ 0 →
        st'.file.inode.mapping l = st.file.inode.mapping l) ∧
      ((st.file.flags.buf_dirty = true → st.file.physblock ≠ 0) →
        st'.file.inode = st.file.inode) ∧
      (st'.file.flags.buf_valid = false ∨ st' = st) := by
  by_cases hb : st.file.pos / st.fs.blocksize = st.file.blockno
  · refine ⟨st, ?_, hI, Keeps.refl st, fun _ => rfl, rfl, hb.symm ▸ rfl,
            fun _ _ => rfl, fun _ => rfl, fun _ _ => rfl, fun _ => rfl,
            Or.inr rfl⟩
    unfold sync_buffer_position
    rw [if_neg (by simpa using hb)]
    rw [hb]
  · obtain ⟨stf, heq, hIf, hK, hfb, hpos, hbno, hbuf, hvalid, hdirty, hmap,
            hmapnz, hinodeB, hnoopC⟩ := flush_ok st hI hE hino
    refine ⟨⟨stf.fs, { stf.file with
                       flags := { stf.file.flags with buf_valid := false },
                       blockno := st.file.pos / st.fs.blocksize }⟩,
            ?_, ?_, ?_, ?_, hpos, rfl, ?_, fun h => absurd h hb, ?_, ?_,
            Or.inl rfl⟩
    · unfold sync_buffer_position
      rw [if_pos (by simpa using hb), heq]
      simp
    · exact ⟨hK.magic.trans hI.magic, hIf.mapInj, hIf.mapLe,
             fun h => by simp at h, fun h => by simp at h, hIf.sizeLow⟩
    · exact Keeps.trans hK ⟨rfl, rfl, rfl, rfl, rfl, rfl, rfl, rfl, rfl, rfl,
                            rfl, rfl, rfl, rfl⟩
    · intro o
      rw [← hfb o]
      by_cases hv : stf.file.flags.buf_valid = true
      · by_cases hlb : o / stf.fs.blocksize = stf.file.blockno
        · have hbc := hIf.bufClean hv (hdirty hv)
          by_cases hm : stf.file.inode.mapping stf.file.blockno = 0 <;>
            simp [fileByte, blockByte, hv, hlb, hbc, hm]
        · simp [fileByte, blockByte, hv, hlb]
      · simp [fileByte, blockByte, hv]
    · intro l hl
      exact hmap l hl
    · intro l hl
      exact hmapnz l hl
    · intro hdp
      by_cases hvd : st.file.flags.buf_valid = true ∧
          st.file.flags.buf_dirty = true
      · exact hinodeB (hdp hvd.2)
      · rw [hnoopC hvd]

/-- Specification of load_buffer with full fill (`dontfill = false`) on a
well-formed state with non-failing collaborators: it succeeds, makes the
cache valid, preserves the logical contents, the invariants, the
mapping, the disk, the cursor and the cached block index, and does not
touch the dirty flag. -/
theorem load_ok (st : St) (hI : Inv st) (hE : NoErrs st.fs.cfg) :
    ∃ st', load_buffer st false = (0, st') ∧ Inv st' ∧ Keeps st st' ∧
      (∀ o, fileByte st' o = fileByte st o) ∧
      st'.file.pos = st.file.pos ∧
      st'.file.blockno = st.file.blockno ∧
      st'.file.flags.buf_valid = true ∧
      st'.file.flags.buf_dirty = st.file.flags.buf_dirty ∧
      st'.file.inode.mapping = st.file.inode.mapping ∧
      st'.fs.disk = st.fs.disk ∧
      st'.fs.nextAlloc = st.fs.nextAlloc := by
  obtain ⟨hR, hW, hA⟩ := hE
  by_cases hv : st.file.flags.buf_valid = true
  · refine ⟨st, ?_, hI, Keeps.refl st, fun _ => rfl, rfl, rfl, hv, rfl, rfl,
            rfl, rfl⟩
    unfold load_buffer
    rw [if_neg (by simpa using hv)]
  · have hv' : st.file.flags.buf_valid = false := by simpa using hv
    by_cases hm : st.file.inode.mapping st.file.blockno ≠ 0
    · -- mapped block: read it from the channel
      refine ⟨⟨st.fs, { st.file with
                        physblock := st.file.inode.mapping st.file.blockno,
                        buf := st.fs.disk
                          (st.file.inode.mapping st.file.blockno),
                        flags := { st.file.flags with buf_valid := true } }⟩,
              ?_, ?_, ?_, ?_, rfl, rfl, rfl, rfl, rfl, rfl, rfl⟩
      · unfold load_buffer ext2fs_bmap2 io_channel_read_blk64
        simp [hv', hm, hR]
      · refine ⟨hI.magic, hI.mapInj, hI.mapLe, fun _ => rfl, ?_, hI.sizeLow⟩
        intro _ _
        simp [hm]
      · exact ⟨rfl, rfl, rfl, rfl, rfl, rfl, rfl, rfl, rfl, rfl, rfl, rfl,
               rfl, rfl⟩
      · intro o
        by_cases hlb : o / st.fs.blocksize = st.file.blockno <;>
          simp [fileByte, blockByte, hv', hlb, hm]
    · -- hole: the slab is zero-filled
      push_neg at hm
      refine ⟨⟨st.fs, { st.file with
                        physblock := 0,
                        buf := fun _ => 0,
                        flags := { st.file.flags with buf_valid := true } }⟩,
              ?_, ?_, ?_, ?_, rfl, rfl, rfl, rfl, rfl, rfl, rfl⟩
      · unfold load_buffer ext2fs_bmap2 io_channel_read_blk64
        simp [hv', hm]
      · refine ⟨hI.magic, hI.mapInj, hI.mapLe, fun _ => hm.symm, ?_,
                hI.sizeLow⟩
        intro _ _
        simp [hm]
      · exact ⟨rfl, rfl, rfl, rfl, rfl, rfl, rfl, rfl, rfl, rfl, rfl, rfl,
               rfl, rfl⟩
      · intro o
        by_cases hlb : o / st.fs.blocksize = st.file.blockno <;>
          simp [fileByte, blockByte, hv', hlb, hm]

/-- Specification of the read loop on a well-formed state with
non-failing collaborators and a nonzero inode: with enough fuel (each
iteration transfers at least one byte, so `wanted` fuel suffices) it
succeeds, returns exactly `min wanted (size - pos)` bytes — the logical
file contents of the byte range starting at the cursor — advances the
cursor by that count, and preserves the logical contents, the invariants
and the scalar state. -/
theorem readLoop_spec (fuel : Nat) :
    ∀ (st : St) (wanted : Nat) (acc : List Nat), Inv st →
      NoErrs st.fs.cfg → st.file.ino ≠ 0 → wanted ≤ fuel →
      ∃ st', readLoop fuel st wanted acc =
          (0, st', acc ++
            ((List.range
                (min wanted (EXT2_I_SIZE st.file.inode - st.file.pos))).map
              fun i => fileByte st (st.file.pos + i))) ∧
        Inv st' ∧ Keeps st st' ∧
        (∀ o, fileByte st' o = fileByte st o) ∧
        st'.file.pos = st.file.pos +
          min wanted (EXT2_I_SIZE st.file.inode - st.file.pos) := by
  induction fuel with
  | zero =>
    intro st wanted acc hI hE hino hf
    have hw : wanted = 0 := Nat.le_zero.mp hf
    refine ⟨st, ?_, hI, Keeps.refl st, fun _ => rfl, by simp [hw]⟩
    simp [readLoop, hw]
  | succ fuel ih =>
    intro st wanted acc hI hE hino hf
    by_cases hrun : st.file.pos < EXT2_I_SIZE st.file.inode ∧ 0 < wanted
    · obtain ⟨st1, hseq, hI1, hK1, hfb1, hpos1, hbno1, hmap1, hsame1, hmapnz1,
              hinode1, hinval1⟩ := sync_ok st hI hE hino
      have hE1 : NoErrs st1.fs.cfg := hK1.cfg ▸ hE
      have hino1 : st1.file.ino ≠ 0 := hK1.ino ▸ hino
      obtain ⟨st2, hleq, hI2, hK2, hfb2, hpos2, hbno2, hval2, hdirty2, hmapeq2,
              hdisk2, halloc2⟩ := load_ok st1 hI1 hE1
      have hbs1 : st1.fs.blocksize = st.fs.blocksize := hK1.blocksize
      have hbs2 : st2.fs.blocksize = st.fs.blocksize := by
        rw [hK2.blocksize, hbs1]
      have hsz1 : EXT2_I_SIZE st1.file.inode = EXT2_I_SIZE st.file.inode :=
        hK1.size_eq
      have hsz2 : EXT2_I_SIZE st2.file.inode = EXT2_I_SIZE st.file.inode := by
        rw [hK2.size_eq, hsz1]
      have hpos21 : st2.file.pos = st.file.pos := by rw [hpos2, hpos1]
      have hbno21 : st2.file.blockno = st.file.pos / st.fs.blocksize := by
        rw [hbno2, hbno1]
      -- the chunk size computed by this iteration
      set bs := st.fs.blocksize with hbsdef
      have hbspos : 0 < bs := blocksize_pos st.fs
      set start := st.file.pos % bs with hstart
      have hstartlt : start < bs := Nat.mod_lt _ hbspos
      set c1v : Nat := if bs - start > wanted then wanted else bs - start
        with hc1v
      set leftv : Nat := EXT2_I_SIZE st.file.inode - st.file.pos with hleftv
      set cv : Nat := if c1v > leftv then leftv else c1v with hcv
      have hc_le_bs : cv ≤ bs - start := by
        rw [hcv, hc1v]; split <;> split <;> omega
      have hc_le_w : cv ≤ wanted := by rw [hcv, hc1v]; split <;> split <;> omega
      have hc_le_left : cv ≤ leftv := by rw [hcv]; split <;> omega
      have hc_pos : 0 < cv := by
        rw [hcv, hc1v]
        have h1 : 0 < wanted := hrun.2
        have h2 : 0 < leftv := by rw [hleftv]; omega
        split <;> split <;> omega
      -- one unfolding of the loop
      have hstep : readLoop (Nat.succ fuel) st wanted acc =
          readLoop fuel ⟨st2.fs, { st2.file with pos := st2.file.pos + cv }⟩
            (wanted - cv)
            (acc ++ (List.range cv).map fun i => st2.file.buf (start + i)) := by
        rw [readLoop, if_pos hrun, hseq]
        simp only [ne_eq, not_true_eq_false, if_false, ite_false,
                   not_false_eq_true, if_neg]
        rw [hleq]
        simp only [ne_eq, not_true_eq_false, ite_false]
        simp only [hbs2, hpos21, hsz2]
      -- the state entering the recursive call
      set st3 : St := ⟨st2.fs, { st2.file with pos := st2.file.pos + cv }⟩
        with hst3
      have hI3 : Inv st3 := ⟨hI2.magic, hI2.mapInj, hI2.mapLe, hI2.physOk,
                             hI2.bufClean, hI2.sizeLow⟩
      have hK3 : Keeps st st3 :=
        Keeps.trans (Keeps.trans hK1 hK2)
          ⟨rfl, rfl, rfl, rfl, rfl, rfl, rfl, rfl, rfl, rfl, rfl, rfl, rfl,
           rfl⟩
      have hfb3 : ∀ o, fileByte st3 o = fileByte st o := fun o => by
        have : fileByte st3 o = fileByte st2 o := rfl
        rw [this, hfb2 o, hfb1 o]
      have hE3 : NoErrs st3.fs.cfg := hK3.cfg ▸ hE
      have hino3 : st3.file.ino ≠ 0 := hK3.ino ▸ hino
      have hpos3 : st3.file.pos = st.file.pos + cv := by
        show st2.file.pos + cv = st.file.pos + cv
        rw [hpos21]
      have hsz3 : EXT2_I_SIZE st3.file.inode = EXT2_I_SIZE st.file.inode :=
        hK3.size_eq
      obtain ⟨st', hreq, hI', hK', hfb', hpos'⟩ :=
        ih st3 (wanted - cv) (acc ++ (List.range cv).map
          fun i => st2.file.buf (start + i)) hI3 hE3 hino3 (by omega)
      -- the bytes of this chunk are the logical contents at the cursor
      have hchunk : ∀ i, i < cv →
          st2.file.buf (start + i) = fileByte st (st.file.pos + i) := by
        intro i hi
        rw [← hfb1 (st.file.pos + i), ← hfb2 (st.file.pos + i)]
        have hilt : start + i < bs := by omega
        have hrepr : st.file.pos + i =
            bs * (st.file.pos / bs) + (start + i) := by
          have := Nat.div_add_mod st.file.pos bs
          omega
        have hdiv : (st.file.pos + i) / bs = st.file.pos / bs := by
          rw [hrepr, Nat.mul_add_div hbspos, Nat.div_eq_of_lt hilt,
              Nat.add_zero]
        have hmod : (st.file.pos + i) % bs = start + i := by
          rw [hrepr, Nat.mul_add_mod]
          exact Nat.mod_eq_of_lt hilt
        unfold fileByte
        rw [hbs2, hdiv, hmod,
            blockByte_cached st2 _ _ hval2 (by rw [hbno21])]
      -- chunk arithmetic: this iteration plus the recursion cover the range
      have hn : min wanted (EXT2_I_SIZE st.file.inode - st.file.pos) =
          cv + min (wanted - cv)
            (EXT2_I_SIZE st3.file.inode - st3.file.pos) := by
        rw [hsz3, hpos3]
        have h1 := hc_le_w
        have h2 : cv ≤ EXT2_I_SIZE st.file.inode - st.file.pos := by
          rw [← hleftv]; exact hc_le_left
        omega
      have hlist : (acc ++ (List.range cv).map fun i =>
            st2.file.buf (start + i)) ++
            (List.range (min (wanted - cv)
              (EXT2_I_SIZE st3.file.inode - st3.file.pos))).map
              (fun i => fileByte st3 (st3.file.pos + i)) =
          acc ++ (List.range (min wanted
            (EXT2_I_SIZE st.file.inode - st.file.pos))).map
            (fun i => fileByte st (st.file.pos + i)) := by
        rw [hn, List.range_add, List.map_append, List.map_map,
            List.append_assoc]
        congr 1
        congr 1
        · refine List.map_congr_left ?_
          intro i hi
          exact hchunk i (List.mem_range.mp hi)
        · refine List.map_congr_left ?_
          intro i _
          show fileByte st3 (st3.file.pos + i) =
            fileByte st (st.file.pos + (cv + i))
          rw [hfb3, hpos3, Nat.add_assoc]
      refine ⟨st', ?_, hI', Keeps.trans hK3 hK',
              fun o => (hfb' o).trans (hfb3 o), ?_⟩
      · rw [hstep, hreq, hlist]
      · rw [hpos', hpos3, hn, hpos3, Nat.add_assoc]
    · -- the loop body does not run: at or past end-of-file, or zero wanted
      have hmin : min wanted (EXT2_I_SIZE st.file.inode - st.file.pos) = 0 := by
        rcases not_and_or.mp hrun with h | h <;> omega
      refine ⟨st, ?_, hI, Keeps.refl st, fun _ => rfl, by simp [hmin]⟩
      rw [readLoop, if_neg hrun, hmin]
      simp

/-- Specification of load_buffer with `dontfill = true` (the caller is
about to overwrite the whole block): it always succeeds, only resolving
the physical block of the cached logical block and marking the cache
valid; the slab contents, the cursor, the inode and the filesystem are
untouched.  On a well-formed state the resolved physical block is the
mapping of the cached logical block whether or not the cache was already
valid. -/
theorem load_skip (st : St) (hI : Inv st) :
    ∃ st', load_buffer st true = (0, st') ∧
      st'.fs = st.fs ∧
      st'.file.inode = st.file.inode ∧
      st'.file.pos = st.file.pos ∧
      st'.file.blockno = st.file.blockno ∧
      st'.file.buf = st.file.buf ∧
      st'.file.flags.buf_valid = true ∧
      st'.file.flags.buf_dirty = st.file.flags.buf_dirty ∧
      st'.file.flags.write = st.file.flags.write ∧
      st'.file.magic = st.file.magic ∧
      st'.file.ino = st.file.ino ∧
      st'.file.physblock = st.file.inode.mapping st.file.blockno := by
  by_cases hv : st.file.flags.buf_valid = true
  · refine ⟨st, ?_, rfl, rfl, rfl, rfl, rfl, hv, rfl, rfl, rfl, rfl,
            (hI.physOk hv).symm ▸ rfl⟩
    unfold load_buffer
    rw [if_neg (by simpa using hv)]
  · have hv' : st.file.flags.buf_valid = false := by simpa using hv
    refine ⟨⟨st.fs, { st.file with
                      physblock := st.file.inode.mapping st.file.blockno,
                      flags := { st.file.flags with buf_valid := true } }⟩,
            ?_, rfl, rfl, rfl, rfl, rfl, rfl, rfl, rfl, rfl, rfl, rfl⟩
    unfold load_buffer ext2fs_bmap2
    by_cases hm : st.file.inode.mapping st.file.blockno = 0 <;>
      simp [hv', hm]

/-- Specification of the write loop's allocation step: starting from a
well-formed state with a valid cache, the conditional allocating mapper
call succeeds and yields a nonzero physical block for the cached logical
block, recorded in the returned inode snapshot; everything else —
including the disk — is untouched, and the mapping stays injective and
allocator-bounded. -/
theorem writeAlloc_ok (st2 : St) (hE2 : NoErrs st2.fs.cfg)
    (hino2 : st2.file.ino ≠ 0)
    (hphys : st2.file.physblock =
      st2.file.inode.mapping st2.file.blockno)
    (hinj : ∀ l m, st2.file.inode.mapping l ≠ 0 →
      st2.file.inode.mapping l = st2.file.inode.mapping m → l = m)
    (hle : ∀ l, st2.file.inode.mapping l ≤ st2.fs.nextAlloc) :
    ∃ fs3 inode3 u3 phys3,
      (if st2.file.physblock = 0 then
         ext2fs_bmap2 st2.fs st2.file.ino (some st2.file.inode)
           (st2.file.ino ≠ 0) st2.file.blockno
       else .ok (st2.fs, st2.file.inode, false, st2.file.physblock)) =
        Except.ok (fs3, inode3, u3, phys3) ∧
      phys3 ≠ 0 ∧
      inode3.mapping st2.file.blockno = phys3 ∧
      (∀ l, l ≠ st2.file.blockno →
        inode3.mapping l = st2.file.inode.mapping l) ∧
      (∀ l m, inode3.mapping l ≠ 0 →
        inode3.mapping l = inode3.mapping m → l = m) ∧
      (∀ l, inode3.mapping l ≤ fs3.nextAlloc) ∧
      inode3.i_size = st2.file.inode.i_size ∧
      inode3.i_size_high = st2.file.inode.i_size_high ∧
      inode3.i_mode = st2.file.inode.i_mode ∧
      inode3.uninit = st2.file.inode.uninit ∧
      fs3.cfg = st2.fs.cfg ∧ fs3.disk = st2.fs.disk ∧
      fs3.inodes = st2.fs.inodes ∧ fs3.punchLog = st2.fs.punchLog ∧
      fs3.flag_rw = st2.fs.flag_rw ∧
      fs3.feature_large_file = st2.fs.feature_large_file ∧
      fs3.s_rev_level = st2.fs.s_rev_level ∧
      fs3.super_dirty = st2.fs.super_dirty := by
  obtain ⟨hR, hW, hA⟩ := hE2
  by_cases hp : st2.file.physblock = 0
  · have hm0 : st2.file.inode.mapping st2.file.blockno = 0 := by
      rw [← hphys, hp]
    refine ⟨{ st2.fs with nextAlloc := st2.fs.nextAlloc + 1 },
            { st2.file.inode with
              mapping := fun l => if l = st2.file.blockno then
                  st2.fs.nextAlloc + 1
                else st2.file.inode.mapping l },
            false, st2.fs.nextAlloc + 1,
            ?_, by omega, by simp, ?_, ?_, ?_, rfl, rfl, rfl, rfl, rfl, rfl,
            rfl, rfl, rfl, rfl, rfl, rfl⟩
    · rw [if_pos hp]
      unfold ext2fs_bmap2
      simp [hm0, hino2, hA]
    · intro l hl
      simp [hl]
    · intro l m hl hlm
      have hlel := hle l
      have hlem := hle m
      by_cases h1 : l = st2.file.blockno <;>
        by_cases h2 : m = st2.file.blockno <;>
          simp only [h1, h2, if_pos, if_neg, ite_true, ite_false] at hl hlm <;>
            first
              | omega
              | exact hinj l m hl hlm
    · intro l
      have := hle l
      by_cases h1 : l = st2.file.blockno <;> simp [h1] <;> omega
  · refine ⟨st2.fs, st2.file.inode, false, st2.file.physblock,
            by rw [if_neg hp], hp, hphys.symm, fun _ _ => rfl,
            hinj, hle, rfl, rfl, rfl, rfl, rfl, rfl, rfl, rfl,
            rfl, rfl, rfl, rfl⟩

theorem block_div (bs q r : Nat) (hbs : 0 < bs) (hr : r < bs) :
    (bs * q + r) / bs = q := by
  rw [Nat.mul_add_div hbs, Nat.div_eq_of_lt hr, Nat.add_zero]

theorem block_mod (bs q r : Nat) (hbs : 0 < bs) (hr : r < bs) :
    (bs * q + r) % bs = r := by
  rw [Nat.mul_add_mod]
  exact Nat.mod_eq_of_lt hr

/-- Specification of one iteration of the write loop on a well-formed
state with non-failing collaborators and a nonzero inode: the iteration
consumes a chunk of `c` bytes (at least one, at most the remaining bytes
and the block capacity), leaves the state well formed with the chunk
bytes as the new logical contents at the cursor and all other offsets
unchanged, advances the cursor by `c`, and leaves the cache valid and
dirty on the cursor's block with a nonzero mapped physical block. -/
theorem writeStep_ok (st : St) (data : List Nat) (hI : Inv st)
    (hE : NoErrs st.fs.cfg) (hino : st.file.ino ≠ 0)
    (hlen : 0 < data.length) :
    ∃ st4 c, 1 ≤ c ∧ c ≤ data.length ∧
      c ≤ st.fs.blocksize - st.file.pos % st.fs.blocksize ∧
      (∀ fuel count, writeLoop (Nat.succ fuel) st data count =
        writeLoop fuel st4 (data.drop c) (count + c)) ∧
      Inv st4 ∧ Keeps st st4 ∧
      st4.file.pos = st.file.pos + c ∧
      (∀ i, i < c → fileByte st4 (st.file.pos + i) = data.getD i 0) ∧
      (∀ o, o < st.file.pos ∨ st.file.pos + c ≤ o →
        fileByte st4 o = fileByte st o) ∧
      st4.file.flags.buf_valid = true ∧
      st4.file.flags.buf_dirty = true ∧
      st4.file.blockno = st.file.pos / st.fs.blocksize ∧
      st4.file.inode.mapping st4.file.blockno ≠ 0 := by
  obtain ⟨st1, hseq, hI1, hK1, hfb1, hpos1, hbno1, hmap1, hsame1, hmapnz1,
          hinode1, hinval1⟩ := sync_ok st hI hE hino
  have hE1 : NoErrs st1.fs.cfg := hK1.cfg ▸ hE
  have hino1 : st1.file.ino ≠ 0 := hK1.ino ▸ hino
  have hbs1 : st1.fs.blocksize = st.fs.blocksize := hK1.blocksize
  have hbspos : 0 < st.fs.blocksize := blocksize_pos st.fs
  have hstartlt : st.file.pos % st.fs.blocksize < st.fs.blocksize :=
    Nat.mod_lt _ hbspos
  obtain ⟨c, hC⟩ : ∃ x, x =
      (if st.fs.blocksize - st.file.pos % st.fs.blocksize > data.length then
         data.length
       else st.fs.blocksize - st.file.pos % st.fs.blocksize) := ⟨_, rfl⟩
  have hc1 : 1 ≤ c := by rw [hC]; split <;> omega
  have hcle_len : c ≤ data.length := by rw [hC]; split <;> omega
  have hcle_bs : c ≤ st.fs.blocksize - st.file.pos % st.fs.blocksize := by
    rw [hC]; split <;> omega
  have hposrepr : st.fs.blocksize * (st.file.pos / st.fs.blocksize) +
      st.file.pos % st.fs.blocksize = st.file.pos :=
    Nat.div_add_mod _ _
  by_cases hfull : c = st.fs.blocksize
  · -- the chunk fills the entire block: dontfill load, full overwrite
    have hstart0 : st.file.pos % st.fs.blocksize = 0 := by omega
    have hbool : (c == st.fs.blocksize) = true := by simp [hfull]
    obtain ⟨st2, hleq, hfs2, hinode2, hpos2, hbno2, hbuf2, hval2, hdirty2,
            hwf2, hmagic2, hino2e, hphys2⟩ := load_skip st1 hI1
    have hE2 : NoErrs st2.fs.cfg := by rw [hfs2]; exact hE1
    have hino2 : st2.file.ino ≠ 0 := by rw [hino2e]; exact hino1
    have hphys : st2.file.physblock =
        st2.file.inode.mapping st2.file.blockno := by
      rw [hphys2, hinode2, hbno2]
    have hinj2 : ∀ l m, st2.file.inode.mapping l ≠ 0 →
        st2.file.inode.mapping l = st2.file.inode.mapping m → l = m := by
      rw [hinode2]; exact hI1.mapInj
    have hle2 : ∀ l, st2.file.inode.mapping l ≤ st2.fs.nextAlloc := by
      rw [hinode2, hfs2]; exact hI1.mapLe
    obtain ⟨fs3, inode3, u3, phys3, hallocEq, hphys3ne, hmap3b, hmap3f,
            hinj3, hle3, hsz3a, hsz3b, hmode3, hunin3, hcfg3, hdisk3,
            hinodes3, hpunch3, hrw3, hfeat3, hrev3, hsdirty3⟩ :=
      writeAlloc_ok st2 hE2 hino2 hphys hinj2 hle2
    have hK2 : Keeps st1 st2 :=
      ⟨by rw [hfs2], by rw [hfs2], by rw [hfs2], by rw [hfs2], by rw [hfs2],
       by rw [hfs2], by rw [hfs2], hino2e, hmagic2, hwf2, by rw [hinode2],
       by rw [hinode2], by rw [hinode2], by rw [hinode2]⟩
    have hbno21 : st2.file.blockno = st.file.pos / st.fs.blocksize := by
      rw [hbno2, hbno1]
    refine ⟨⟨fs3, { st2.file with
                    inode := inode3, physblock := phys3,
                    flags := { st2.file.flags with buf_dirty := true },
                    buf := fun i =>
                      if st.file.pos % st.fs.blocksize ≤ i ∧
                         i < st.file.pos % st.fs.blocksize + c then
                        data.getD (i - st.file.pos % st.fs.blocksize) 0
                      else st2.file.buf i,
                    pos := st2.file.pos + c }⟩, c,
            hc1, hcle_len, hcle_bs, ?_, ?_, ?_, ?_, ?_, ?_, hval2, rfl, ?_,
            ?_⟩
    · -- the unfolding equation
      intro fuel count
      rw [writeLoop, if_pos hlen, hseq]
      simp only [ne_eq, not_true_eq_false, if_false, ite_false,
                 not_false_eq_true, if_neg]
      simp only [hbs1, hpos1]
      rw [← hC, hbool, hleq]
      simp only [ne_eq, not_true_eq_false, ite_false]
      rw [hallocEq]
    · -- the invariant
      refine ⟨?_, hinj3, hle3, fun _ => hmap3b.symm, ?_, ?_⟩
      · show st2.file.magic = _
        rw [hmagic2, hK1.magic, hI.magic]
      · intro _ hdf
        simp at hdf
      · show inode3.i_size < 2 ^ 32
        rw [hsz3a, hinode2, hK1.isize]
        exact hI.sizeLow
    · exact Keeps.trans (Keeps.trans hK1 hK2)
        ⟨hcfg3, hinodes3, hpunch3, hrw3, hfeat3, hrev3, hsdirty3, rfl, rfl,
         rfl, hsz3a, hsz3b, hmode3, hunin3⟩
    · show st2.file.pos + c = st.file.pos + c
      rw [hpos2, hpos1]
    · -- the chunk bytes are now the logical contents at the cursor
      intro i hi
      have hilt : i < st.fs.blocksize := by omega
      have hrepr : st.file.pos + i =
          st.fs.blocksize * (st.file.pos / st.fs.blocksize) + i := by omega
      have hdiv : (st.file.pos + i) / st.fs.blocksize =
          st.file.pos / st.fs.blocksize := by
        rw [hrepr, block_div _ _ _ hbspos hilt]
      have hmod : (st.file.pos + i) % st.fs.blocksize = i := by
        rw [hrepr, block_mod _ _ _ hbspos hilt]
      have hbs4f : Ext2Filsys.blocksize fs3 = st.fs.blocksize := by
        unfold Ext2Filsys.blocksize
        rw [hcfg3, hfs2, hK1.cfg]
      unfold fileByte
      dsimp only
      rw [hbs4f, hdiv, hmod]
      unfold blockByte
      dsimp only
      rw [if_pos ⟨hval2, hbno21.symm⟩]
      rw [if_pos ⟨by omega, by omega⟩]
      simp [hstart0]
    · -- all offsets outside the chunk are untouched
      intro o ho
      have hdvd : st.fs.blocksize ∣ st.file.pos :=
        Nat.dvd_of_mod_eq_zero hstart0
      have hlo : o / st.fs.blocksize ≠ st.file.pos / st.fs.blocksize := by
        rcases ho with ho | ho
        · exact Nat.ne_of_lt (Nat.div_lt_div_of_lt_of_dvd hdvd ho)
        · have h1 : (st.file.pos + st.fs.blocksize) / st.fs.blocksize =
              st.file.pos / st.fs.blocksize + 1 :=
            Nat.add_div_right _ hbspos
          have h2 : (st.file.pos + st.fs.blocksize) / st.fs.blocksize ≤
              o / st.fs.blocksize :=
            Nat.div_le_div_right (by omega)
          omega
      have hbs4f : Ext2Filsys.blocksize fs3 = st.fs.blocksize := by
        unfold Ext2Filsys.blocksize
        rw [hcfg3, hfs2, hK1.cfg]
      have hlo2 : o / st.fs.blocksize ≠ st2.file.blockno := by
        rw [hbno21]; exact hlo
      have hlo1 : o / st.fs.blocksize ≠ st1.file.blockno := by
        rw [hbno1]; exact hlo
      have hcond2 : ¬ (st2.file.flags.buf_valid = true ∧
          o / st.fs.blocksize = st2.file.blockno) := fun hc => hlo2 hc.2
      have hcond1 : ¬ (st1.file.flags.buf_valid = true ∧
          o / st.fs.blocksize = st1.file.blockno) := fun hc => hlo1 hc.2
      rw [← hfb1 o]
      unfold fileByte
      dsimp only
      rw [hbs4f, hbs1]
      unfold blockByte
      dsimp only
      rw [if_neg hcond2, if_neg hcond1, hmap3f _ hlo2, hinode2, hdisk3, hfs2]
    · show st2.file.blockno = _
      rw [hbno2, hbno1]
    · show inode3.mapping st2.file.blockno ≠ 0
      rw [hmap3b]
      exact hphys3ne
  · -- partial chunk: read-modify-write through a full load
    have hbool : (c == st.fs.blocksize) = false := by simp [hfull]
    obtain ⟨st2, hleq, hI2, hK2, hfb2, hpos2, hbno2, hval2, hdirty2, hmapeq2,
            hdisk2, halloc2⟩ := load_ok st1 hI1 hE1
    have hE2 : NoErrs st2.fs.cfg := hK2.cfg ▸ hE1
    have hino2 : st2.file.ino ≠ 0 := hK2.ino ▸ hino1
    have hbno21 : st2.file.blockno = st.file.pos / st.fs.blocksize := by
      rw [hbno2, hbno1]
    obtain ⟨fs3, inode3, u3, phys3, hallocEq, hphys3ne, hmap3b, hmap3f,
            hinj3, hle3, hsz3a, hsz3b, hmode3, hunin3, hcfg3, hdisk3,
            hinodes3, hpunch3, hrw3, hfeat3, hrev3, hsdirty3⟩ :=
      writeAlloc_ok st2 hE2 hino2 (hI2.physOk hval2) hI2.mapInj hI2.mapLe
    refine ⟨⟨fs3, { st2.file with
                    inode := inode3, physblock := phys3,
                    flags := { st2.file.flags with buf_dirty := true },
                    buf := fun i =>
                      if st.file.pos % st.fs.blocksize ≤ i ∧
                         i < st.file.pos % st.fs.blocksize + c then
                        data.getD (i - st.file.pos % st.fs.blocksize) 0
                      else st2.file.buf i,
                    pos := st2.file.pos + c }⟩, c,
            hc1, hcle_len, hcle_bs, ?_, ?_, ?_, ?_, ?_, ?_, hval2, rfl, ?_,
            ?_⟩
    · intro fuel count
      rw [writeLoop, if_pos hlen, hseq]
      simp only [ne_eq, not_true_eq_false, if_false, ite_false,
                 not_false_eq_true, if_neg]
      simp only [hbs1, hpos1]
      rw [← hC, hbool, hleq]
      simp only [ne_eq, not_true_eq_false, ite_false]
      rw [hallocEq]
    · refine ⟨?_, hinj3, hle3, fun _ => hmap3b.symm, ?_, ?_⟩
      · show st2.file.magic = _
        rw [(Keeps.trans hK1 hK2).magic, hI.magic]
      · intro _ hdf
        simp at hdf
      · show inode3.i_size < 2 ^ 32
        rw [hsz3a, (Keeps.trans hK1 hK2).isize]
        exact hI.sizeLow
    · exact Keeps.trans (Keeps.trans hK1 hK2)
        ⟨hcfg3, hinodes3, hpunch3, hrw3, hfeat3, hrev3, hsdirty3, rfl, rfl,
         rfl, hsz3a, hsz3b, hmode3, hunin3⟩
    · show st2.file.pos + c = st.file.pos + c
      rw [hpos2, hpos1]
    · intro i hi
      have hilt : st.file.pos % st.fs.blocksize + i < st.fs.blocksize := by
        omega
      have hrepr : st.file.pos + i =
          st.fs.blocksize * (st.file.pos / st.fs.blocksize) +
            (st.file.pos % st.fs.blocksize + i) := by omega
      have hdiv : (st.file.pos + i) / st.fs.blocksize =
          st.file.pos / st.fs.blocksize := by
        rw [hrepr, block_div _ _ _ hbspos hilt]
      have hmod : (st.file.pos + i) % st.fs.blocksize =
          st.file.pos % st.fs.blocksize + i := by
        rw [hrepr, block_mod _ _ _ hbspos hilt]
      have hbs4f : Ext2Filsys.blocksize fs3 = st.fs.blocksize := by
        unfold Ext2Filsys.blocksize
        rw [hcfg3, hK2.cfg, hK1.cfg]
      unfold fileByte
      dsimp only
      rw [hbs4f, hdiv, hmod]
      unfold blockByte
      dsimp only
      rw [if_pos ⟨hval2, hbno21.symm⟩]
      rw [if_pos ⟨by omega, by omega⟩]
      simp
    · intro o ho
      have hbs4f : Ext2Filsys.blocksize fs3 = st.fs.blocksize := by
        unfold Ext2Filsys.blocksize
        rw [hcfg3, hK2.cfg, hK1.cfg]
      have hbs2e : st2.fs.blocksize = st.fs.blocksize := by
        rw [hK2.blocksize, hbs1]
      by_cases hlo : o / st.fs.blocksize = st.file.pos / st.fs.blocksize
      · -- same block as the cursor: the slab outside the chunk is kept
        have horepr : st.fs.blocksize * (o / st.fs.blocksize) +
            o % st.fs.blocksize = o := Nat.div_add_mod _ _
        have homod : o % st.fs.blocksize < st.file.pos % st.fs.blocksize ∨
            st.file.pos % st.fs.blocksize + c ≤ o % st.fs.blocksize := by
          rw [hlo] at horepr
          omega
        rw [← hfb1 o, ← hfb2 o]
        unfold fileByte
        dsimp only
        rw [hbs4f, hbs2e]
        unfold blockByte
        dsimp only
        rw [if_pos ⟨hval2, hlo.trans hbno21.symm⟩]
        rw [if_neg (by omega)]
        rw [if_pos ⟨hval2, hlo.trans hbno21.symm⟩]
      · -- a different block: mapping and disk are untouched there
        have hlo2 : o / st.fs.blocksize ≠ st2.file.blockno := by
          rw [hbno21]; exact hlo
        have hcond2 : ¬ (st2.file.flags.buf_valid = true ∧
            o / st.fs.blocksize = st2.file.blockno) := fun hc => hlo2 hc.2
        rw [← hfb1 o, ← hfb2 o]
        unfold fileByte
        dsimp only
        rw [hbs4f, hbs2e]
        unfold blockByte
        dsimp only
        rw [if_neg hcond2, hmap3f _ hlo2, hdisk3, if_neg hcond2]
    · show st2.file.blockno = _
      rw [hbno2, hbno1]
    · show inode3.mapping st2.file.blockno ≠ 0
      rw [hmap3b]
      exact hphys3ne

theorem getD_drop (l : List Nat) (c j : Nat) :
    (l.drop c).getD j 0 = l.getD (c + j) 0 := by
  simp [List.getD_eq_getElem?_getD, List.getElem?_drop]

/-- Specification of the write loop on a well-formed state with
non-failing collaborators and a nonzero inode: with enough fuel
(`data.length` suffices since every iteration transfers at least one
byte) it succeeds, transfers every byte, installs the data as the
logical file contents at the cursor while leaving every other offset
unchanged, advances the cursor past the data, and — when at least one
byte was written — leaves the cache valid and dirty on the block holding
the last written byte, with a nonzero mapped physical block. -/
theorem writeLoop_spec (fuel : Nat) :
    ∀ (st : St) (data : List Nat) (count : Nat), Inv st →
      NoErrs st.fs.cfg → st.file.ino ≠ 0 → data.length ≤ fuel →
      ∃ st', writeLoop fuel st data count = (0, st', count + data.length) ∧
        Inv st' ∧ Keeps st st' ∧
        st'.file.pos = st.file.pos + data.length ∧
        (∀ i, i < data.length →
          fileByte st' (st.file.pos + i) = data.getD i 0) ∧
        (∀ o, o < st.file.pos ∨ st.file.pos + data.length ≤ o →
          fileByte st' o = fileByte st o) ∧
        (data.length = 0 → st' = st) ∧
        (0 < data.length →
          st'.file.flags.buf_valid = true ∧
          st'.file.flags.buf_dirty = true ∧
          st'.file.blockno = (st'.file.pos - 1) / st.fs.blocksize ∧
          st'.file.inode.mapping st'.file.blockno ≠ 0) := by
  induction fuel with
  | zero =>
    intro st data count hI hE hino hf
    have hlen0 : data.length = 0 := by omega
    refine ⟨st, ?_, hI, Keeps.refl st, by simp [hlen0], by omega,
            fun o _ => rfl, fun _ => rfl, fun h => absurd h (by omega)⟩
    simp [writeLoop, hlen0]
  | succ fuel ih =>
    intro st data count hI hE hino hf
    by_cases h0 : 0 < data.length
    · obtain ⟨st4, c, hc1, hclen, hcbs, hstepEq, hI4, hK4, hpos4, hwr4, hfr4,
              hval4, hdirty4, hbno4, hmapnz4⟩ := writeStep_ok st data hI hE
        hino h0
      have hE4 : NoErrs st4.fs.cfg := hK4.cfg ▸ hE
      have hino4 : st4.file.ino ≠ 0 := hK4.ino ▸ hino
      have hdroplen : (data.drop c).length = data.length - c := by simp
      obtain ⟨st', hloopEq, hI', hK', hpos', hwr', hfr', hnil', hcache'⟩ :=
        ih st4 (data.drop c) (count + c) hI4 hE4 hino4 (by omega)
      have hcount : count + c + (data.drop c).length =
          count + data.length := by
        rw [hdroplen]; omega
      refine ⟨st', ?_, hI', Keeps.trans hK4 hK', ?_, ?_, ?_, ?_, ?_⟩
      · rw [hstepEq fuel count, hloopEq, hcount]
      · rw [hpos', hdroplen, hpos4]; omega
      · intro i hi
        by_cases hic : i < c
        · rw [hfr' (st.file.pos + i) (Or.inl (by omega)), hwr4 i hic]
        · have h1 := hwr' (i - c) (by rw [hdroplen]; omega)
          rw [hpos4] at h1
          have h2 : st.file.pos + c + (i - c) = st.file.pos + i := by omega
          rw [h2, getD_drop] at h1
          have h3 : c + (i - c) = i := by omega
          rw [h3] at h1
          exact h1
      · intro o ho
        have hfr'o := hfr' o (by rw [hdroplen, hpos4]; omega)
        rw [hfr'o]
        exact hfr4 o (by omega)
      · intro hlen0
        omega
      · intro _
        by_cases hrest : 0 < (data.drop c).length
        · obtain ⟨hv, hd, hb, hm⟩ := hcache' hrest
          exact ⟨hv, hd, by rw [hb, hK4.blocksize], hm⟩
        · have hst4 : st' = st4 := hnil' (by omega)
          rw [hst4]
          have hcl : c = data.length := by omega
          have hbspos : 0 < st.fs.blocksize := blocksize_pos st.fs
          have hstartlt : st.file.pos % st.fs.blocksize < st.fs.blocksize :=
            Nat.mod_lt _ hbspos
          have hrepr : st.file.pos + c - 1 =
              st.fs.blocksize * (st.file.pos / st.fs.blocksize) +
                (st.file.pos % st.fs.blocksize + c - 1) := by
            have := Nat.div_add_mod st.file.pos st.fs.blocksize
            omega
          have hblk : (st.file.pos + c - 1) / st.fs.blocksize =
              st.file.pos / st.fs.blocksize := by
            rw [hrepr, block_div _ _ _ hbspos (by omega)]
          refine ⟨hval4, hdirty4, ?_, hmapnz4⟩
          rw [hbno4, hpos4, hblk]
    · have hlen0 : data.length = 0 := by omega
      refine ⟨st, ?_, hI, Keeps.refl st, by simp [hlen0], by omega,
              fun o _ => rfl, fun _ => rfl, fun h => absurd h (by omega)⟩
      rw [writeLoop, if_neg h0]
      simp [hlen0]

/-- The large-file step never touches the mapper, channel, inode table,
punch log, allocator or configuration. -/
theorem large_file_step_fields (fs : Ext2Filsys) (inode : Ext2Inode) :
    (set_size2_large_file_step fs inode).cfg = fs.cfg ∧
    (set_size2_large_file_step fs inode).disk = fs.disk ∧
    (set_size2_large_file_step fs inode).inodes = fs.inodes ∧
    (set_size2_large_file_step fs inode).nextAlloc = fs.nextAlloc ∧
    (set_size2_large_file_step fs inode).punchLog = fs.punchLog ∧
    (set_size2_large_file_step fs inode).flag_rw = fs.flag_rw := by
  unfold set_size2_large_file_step ext2fs_mark_super_dirty
    ext2fs_update_dynamic_rev
  split
  · split <;> exact ⟨rfl, rfl, rfl, rfl, rfl, rfl⟩
  · exact ⟨rfl, rfl, rfl, rfl, rfl, rfl⟩

/-- The large-file step activates the feature flag and marks the
superblock dirty exactly under its guard, and never clears an active
flag. -/
theorem large_file_step_spec (fs : Ext2Filsys) (inode : Ext2Inode) :
    ((LINUX_S_ISREG inode.i_mode ∧
      ext2fs_needs_large_file_feature (EXT2_I_SIZE inode) ∧
      (¬ fs.feature_large_file ∨ fs.s_rev_level = 0)) →
      (set_size2_large_file_step fs inode).feature_large_file = true ∧
      (set_size2_large_file_step fs inode).super_dirty = true) ∧
    (¬ (LINUX_S_ISREG inode.i_mode ∧
        ext2fs_needs_large_file_feature (EXT2_I_SIZE inode) ∧
        (¬ fs.feature_large_file ∨ fs.s_rev_level = 0)) →
      set_size2_large_file_step fs inode = fs) ∧
    (fs.feature_large_file = true →
      (set_size2_large_file_step fs inode).feature_large_file = true) := by
  refine ⟨?_, ?_, ?_⟩
  · intro hcond
    unfold set_size2_large_file_step ext2fs_mark_super_dirty
      ext2fs_update_dynamic_rev
    rw [if_pos hcond]
    split <;> exact ⟨rfl, rfl⟩
  · intro hcond
    unfold set_size2_large_file_step
    rw [if_neg hcond]
  · intro hf
    unfold set_size2_large_file_step ext2fs_mark_super_dirty
      ext2fs_update_dynamic_rev
    split
    · split <;> rfl
    · exact hf

/-- Specification of ext2fs_file_zero_past_offset on a well-formed state
of a handle on a real inode whose snapshot has been persisted
(`fs.inodes ino = inode`, as holds right after the write_inode step of
set_size2) with non-failing collaborators: the call succeeds, preserves
the scalar state, the cursor, and every logical byte below `size`; the
invariants are preserved whenever a valid cache is dirty (a valid clean
slab can be left stale past `size`); the inode snapshot is untouched as
long as a dirty cache has a resolved physical block; and a block-aligned
`size` makes the call a no-op. -/
theorem zero_past_ok (st : St) (size : Nat) (hI : Inv st)
    (hE : NoErrs st.fs.cfg) (hino : st.file.ino ≠ 0)
    (hinodes : st.fs.inodes st.file.ino = st.file.inode) :
    ∃ st', ext2fs_file_zero_past_offset st size = (0, st') ∧
      Keeps st st' ∧
      (∀ o, o < size → fileByte st' o = fileByte st o) ∧
      st'.file.pos = st.file.pos ∧
      ((st.file.flags.buf_valid = true → st.file.flags.buf_dirty = true) →
        Inv st') ∧
      ((st.file.flags.buf_dirty = true → st.file.physblock ≠ 0) →
        st'.file.inode = st.file.inode) ∧
      (size % st.fs.blocksize = 0 → st' = st) := by
  by_cases hoff : size % st.fs.blocksize = 0
  · refine ⟨st, ?_, Keeps.refl st, fun _ _ => rfl, rfl, fun _ => hI,
            fun _ => rfl, fun _ => rfl⟩
    unfold ext2fs_file_zero_past_offset
    rw [if_pos hoff]
  · obtain ⟨st1, hseq, hI1, hK1, hfb1, hpos1, hbno1, hmap1, hsame1, hmapnz1,
            hinode1, hinval1⟩ := sync_ok st hI hE hino
    obtain ⟨hR, hW, hA⟩ := hE
    have hino1 : st1.file.ino ≠ 0 := hK1.ino ▸ hino
    have hbm : ext2fs_bmap2 st1.fs st1.file.ino none false
        (size / st.fs.blocksize) =
        Except.ok (st1.fs, st.file.inode,
          st.file.inode.uninit (size / st.fs.blocksize),
          st.file.inode.mapping (size / st.fs.blocksize)) := by
      unfold ext2fs_bmap2
      rw [hK1.ino, hK1.inodes]
      by_cases hm : st.file.inode.mapping (size / st.fs.blocksize) = 0 <;>
        simp [hino, hinodes, hm]
    by_cases hskip : st.file.inode.mapping (size / st.fs.blocksize) = 0 ∨
        st.file.inode.uninit (size / st.fs.blocksize) = true
    · -- hole or uninitialized region: nothing to zero
      refine ⟨st1, ?_, hK1, fun o _ => hfb1 o, hpos1, fun _ => hI1,
              hinode1, fun h => absurd h hoff⟩
      unfold ext2fs_file_zero_past_offset
      rw [if_neg hoff, hseq]
      simp only [ne_eq, not_true_eq_false, ite_false]
      rw [hbm]
      simp only [ne_eq, not_true_eq_false, ite_false]
      rw [if_pos (by
        rcases hskip with h | h
        · exact Or.inl h
        · exact Or.inr (by simp [h]))]
    · push_neg at hskip
      obtain ⟨hmnz, hunin⟩ := hskip
      have hunin' : st.file.inode.uninit (size / st.fs.blocksize) = false :=
        by simpa using hunin
      have hE1w : st1.fs.cfg.io_write_err
          (st.file.inode.mapping (size / st.fs.blocksize)) = 0 := by
        rw [hK1.cfg]; exact hW _
      have hE1r : st1.fs.cfg.io_read_err
          (st.file.inode.mapping (size / st.fs.blocksize)) = 0 := by
        rw [hK1.cfg]; exact hR _
      have hmap1nz : st1.file.inode.mapping (size / st.fs.blocksize) =
          st.file.inode.mapping (size / st.fs.blocksize) :=
        hmapnz1 _ hmnz
      refine ⟨⟨{ st1.fs with
                 disk := fun b =>
                   if b = st.file.inode.mapping (size / st.fs.blocksize) then
                     (fun i => if size % st.fs.blocksize ≤ i ∧
                          i < st.fs.blocksize then 0
                        else st1.fs.disk
                          (st.file.inode.mapping (size / st.fs.blocksize)) i)
                   else st1.fs.disk b },
               st1.file⟩, ?_, ?_, ?_, hpos1, ?_, hinode1,
              fun h => absurd h hoff⟩
      · unfold ext2fs_file_zero_past_offset
        rw [if_neg hoff, hseq]
        simp only [ne_eq, not_true_eq_false, ite_false]
        rw [hbm]
        simp only [ne_eq, not_true_eq_false, ite_false]
        rw [if_neg (by
          push_neg
          exact ⟨hmnz, by simp [hunin']⟩)]
        unfold io_channel_read_blk64 io_channel_write_blk64
        rw [if_neg (by simpa using hE1r)]
        dsimp only
        rw [if_neg (by simpa using hE1w)]
      · exact Keeps.trans hK1 ⟨rfl, rfl, rfl, rfl, rfl, rfl, rfl, rfl, rfl,
          rfl, rfl, rfl, rfl, rfl⟩
      · -- bytes below `size` are unchanged: the write only zeroes the
        -- tail of the block containing `size`, past the in-block offset
        intro o ho
        rw [← hfb1 o]
        have hbs1 : st1.fs.blocksize = st.fs.blocksize := hK1.blocksize
        have hbspos : 0 < st.fs.blocksize := blocksize_pos st.fs
        have hF : ∀ d : Nat → Nat → Nat,
            Ext2Filsys.blocksize { st1.fs with disk := d } =
              st.fs.blocksize := fun _ => hbs1
        unfold fileByte
        dsimp only
        rw [hF, hbs1]
        unfold blockByte
        dsimp only
        by_cases hcached : st1.file.flags.buf_valid = true ∧
            o / st.fs.blocksize = st1.file.blockno
        · rw [if_pos hcached, if_pos hcached]
        · rw [if_neg hcached, if_neg hcached]
          by_cases hmz : st1.file.inode.mapping (o / st.fs.blocksize) = 0
          · rw [if_neg (by simpa using hmz), if_neg (by simpa using hmz)]
          · rw [if_pos hmz, if_pos hmz]
            by_cases hsame : st1.file.inode.mapping (o / st.fs.blocksize) =
                st.file.inode.mapping (size / st.fs.blocksize)
            · -- same physical block: this is the block containing `size`,
              -- and `o < size` keeps the byte below the zeroed tail
              have hlsz : o / st.fs.blocksize = size / st.fs.blocksize :=
                hI1.mapInj _ _ hmz (hsame.trans hmap1nz.symm)
              have homod : o % st.fs.blocksize < size % st.fs.blocksize := by
                have h1 := Nat.div_add_mod o st.fs.blocksize
                have h2 := Nat.div_add_mod size st.fs.blocksize
                rw [hlsz] at h1
                omega
              rw [hsame, if_pos rfl]
              exact if_neg (by omega)
            · rw [if_neg hsame]
      · -- the invariants: a valid cache is dirty by hypothesis, so the
        -- clean-slab condition is vacuous
        intro hvd
        refine ⟨hI1.magic, hI1.mapInj, hI1.mapLe, hI1.physOk, ?_,
                hI1.sizeLow⟩
        intro hv1 hd1
        rcases hinval1 with hinv | hsteq
        · rw [hinv] at hv1
          exact absurd hv1 (by simp)
        · rw [hsteq] at hv1 hd1
          rw [hvd hv1] at hd1
          exact absurd hd1 (by simp)

/-- Specification of ext2fs_file_set_size2 for a growing (or unchanged)
size on a well-formed state of a handle on a real inode, with
non-failing collaborators, an addressable target, and a cache that is
dirty whenever valid (as the write loop leaves it): the resize succeeds,
never punches, records exactly the requested size, preserves every
logical byte below the new size, the cursor, the configuration and the
open-mode state, and keeps the state well formed. -/
theorem set_size2_grow (st : St) (size : Nat) (hI : Inv st)
    (hE : NoErrs st.fs.cfg) (hino : st.file.ino ≠ 0)
    (hgrow : EXT2_I_SIZE st.file.inode ≤ size)
    (hbig : size ≠ 0 → (size - 1) / st.fs.blocksize ≤ st.fs.cfg.max_file_block)
    (hcache : st.file.flags.buf_valid = true →
      st.file.flags.buf_dirty = true) :
    ∃ st', ext2fs_file_set_size2 st size = (0, st') ∧
      Inv st' ∧
      EXT2_I_SIZE st'.file.inode = size ∧
      (∀ o, o < size → fileByte st' o = fileByte st o) ∧
      st'.file.pos = st.file.pos ∧
      st'.fs.cfg = st.fs.cfg ∧
      st'.file.ino = st.file.ino ∧
      st'.file.flags.write = st.file.flags.write ∧
      st'.fs.punchLog = st.fs.punchLog := by
  obtain ⟨hcfgA, hdiskA, hinodesA, hallocA, hpunchA, hrwA⟩ :=
    large_file_step_fields st.fs st.file.inode
  -- the state after the feature step, the size-field update and the
  -- inode write-back
  have hstB : ∃ stB : St,
      stB = ⟨{ set_size2_large_file_step st.fs st.file.inode with
               inodes := fun i => if i = st.file.ino then
                   { st.file.inode with
                     i_size := size % 2 ^ 32, i_size_high := size / 2 ^ 32 }
                 else (set_size2_large_file_step st.fs st.file.inode).inodes
                   i },
             { st.file with
               inode := { st.file.inode with
                          i_size := size % 2 ^ 32,
                          i_size_high := size / 2 ^ 32 } }⟩ := ⟨_, rfl⟩
  obtain ⟨stB, hstBdef⟩ := hstB
  have hIB : Inv stB := by
    rw [hstBdef]
    refine ⟨hI.magic, hI.mapInj, ?_, hI.physOk, ?_, ?_⟩
    · intro l
      have := hI.mapLe l
      simpa [hallocA] using this
    · intro hv hd
      have := hcache hv
      rw [this] at hd
      exact absurd hd (by simp)
    · exact Nat.mod_lt _ (by norm_num)
  have hEB : NoErrs stB.fs.cfg := by
    rw [hstBdef]
    show NoErrs
      ((set_size2_large_file_step st.fs st.file.inode).cfg)
    rw [hcfgA]
    exact hE
  have hinoB : stB.file.ino ≠ 0 := by rw [hstBdef]; exact hino
  have hinodesB : stB.fs.inodes stB.file.ino = stB.file.inode := by
    rw [hstBdef]
    simp
  obtain ⟨stC, hzpEq, hKC, hfbC, hposC, hIC, hinodeC, hsameC⟩ :=
    zero_past_ok stB size hIB hEB hinoB hinodesB
  have hbsB : stB.fs.blocksize = st.fs.blocksize := by
    rw [hstBdef]
    show Ext2Filsys.blocksize _ = _
    unfold Ext2Filsys.blocksize
    dsimp only
    rw [hcfgA]
  have hfbB : ∀ o, fileByte stB o = fileByte st o := by
    intro o
    rw [hstBdef]
    unfold fileByte
    dsimp only
    have hbsB' : Ext2Filsys.blocksize
        { set_size2_large_file_step st.fs st.file.inode with
          inodes := fun i => if i = st.file.ino then
              { st.file.inode with
                i_size := size % 2 ^ 32, i_size_high := size / 2 ^ 32 }
            else (set_size2_large_file_step st.fs st.file.inode).inodes i } =
          st.fs.blocksize := by
      unfold Ext2Filsys.blocksize
      dsimp only
      rw [hcfgA]
    rw [hbsB']
    unfold blockByte
    dsimp only
    rw [hdiskA]
  have hguard : (size + st.fs.blocksize - 1) / st.fs.blocksize ≥
      (EXT2_I_SIZE st.file.inode + st.fs.blocksize - 1) / st.fs.blocksize :=
    Nat.div_le_div_right (by omega)
  refine ⟨stC, ?_, hIC (by rw [hstBdef]; exact hcache), ?_, ?_, ?_, ?_, ?_,
          ?_, ?_⟩
  · unfold ext2fs_file_set_size2
    rw [if_neg (by simp [hI.magic])]
    rw [if_neg (by
      unfold ext2fs_file_block_offset_too_big
      intro hcontra
      rcases hcontra with ⟨hsz0, htb⟩
      have := hbig hsz0
      simp at htb
      omega)]
    dsimp only
    rw [if_pos hino]
    unfold ext2fs_write_inode
    dsimp only
    rw [← hstBdef, hzpEq]
    simp only [ne_eq, not_true_eq_false, ite_false]
    rw [if_pos hguard]
  · rw [hKC.size_eq, hstBdef]
    show size % 2 ^ 32 + size / 2 ^ 32 * 2 ^ 32 = size
    exact Nat.mod_add_div' size (2 ^ 32)
  · intro o ho
    rw [hfbC o ho, hfbB o]
  · rw [hposC, hstBdef]
  · rw [hKC.cfg, hstBdef]
    show (set_size2_large_file_step st.fs st.file.inode).cfg = st.fs.cfg
    exact hcfgA
  · rw [hKC.ino, hstBdef]
  · rw [hKC.wflag, hstBdef]
  · rw [hKC.punchLog, hstBdef]
    show (set_size2_large_file_step st.fs st.file.inode).punchLog =
      st.fs.punchLog
    exact hpunchA

/-- Specification of ext2fs_file_write on a well-formed state of a
writable handle on a real inode with non-failing collaborators and an
addressable target range: the call succeeds reporting every byte
written, advances the cursor past the data, extends the recorded size
to the cursor when it grew past it, installs the data as the logical
contents of the written range, and leaves every other logical byte
below the final size unchanged. -/
theorem ext2fs_file_write_ok (st : St) (data : List Nat) (hI : Inv st)
    (hE : NoErrs st.fs.cfg) (hino : st.file.ino ≠ 0)
    (hwr : st.file.flags.write = true)
    (hbig : st.file.pos + data.length ≠ 0 →
      (st.file.pos + data.length - 1) / st.fs.blocksize ≤
        st.fs.cfg.max_file_block) :
    ∃ st', ext2fs_file_write st data = (0, st', some data.length) ∧
      Inv st' ∧
      st'.file.pos = st.file.pos + data.length ∧
      (0 < data.length → EXT2_I_SIZE st'.file.inode =
        max (EXT2_I_SIZE st.file.inode) (st.file.pos + data.length)) ∧
      (data.length = 0 → st' = st) ∧
      (∀ i, i < data.length →
        fileByte st' (st.file.pos + i) = data.getD i 0) ∧
      (∀ o, o < max (EXT2_I_SIZE st.file.inode)
          (st.file.pos + data.length) →
        (o < st.file.pos ∨ st.file.pos + data.length ≤ o) →
        fileByte st' o = fileByte st o) ∧
      st'.fs.cfg = st.fs.cfg ∧
      st'.file.ino = st.file.ino ∧
      st'.file.flags.write = st.file.flags.write := by
  obtain ⟨stl, hloopEq, hIl, hKl, hposl, hwrl, hfrl, hnill, hcachel⟩ :=
    writeLoop_spec data.length st data 0 hI hE hino (Nat.le_refl _)
  have hsizel : EXT2_I_SIZE stl.file.inode = EXT2_I_SIZE st.file.inode :=
    hKl.size_eq
  by_cases hres : 0 + data.length ≠ 0 ∧
      EXT2_I_SIZE stl.file.inode < stl.file.pos
  · -- the cursor grew past the recorded size: the resize step runs
    have hlen0 : 0 < data.length := by omega
    obtain ⟨hv, hd, _, _⟩ := hcachel hlen0
    have hcache : stl.file.flags.buf_valid = true →
        stl.file.flags.buf_dirty = true := fun _ => hd
    have hEl : NoErrs stl.fs.cfg := hKl.cfg ▸ hE
    have hinol : stl.file.ino ≠ 0 := hKl.ino ▸ hino
    have hlt : EXT2_I_SIZE st.file.inode <
        st.file.pos + data.length := by
      rw [← hsizel, ← hposl]
      exact hres.2
    have hbigl : stl.file.pos ≠ 0 →
        (stl.file.pos - 1) / stl.fs.blocksize ≤
          stl.fs.cfg.max_file_block := by
      intro h
      rw [hposl, hKl.blocksize, hKl.cfg]
      exact hbig (by rw [hposl] at h; exact h)
    obtain ⟨stC, hgrowEq, hIC, hszC, hfbC, hposC, hcfgC, hinoC, hwfC,
            hpunchC⟩ :=
      set_size2_grow stl stl.file.pos hIl hEl hinol (Nat.le_of_lt hres.2)
        hbigl hcache
    refine ⟨stC, ?_, hIC, ?_, ?_, ?_, ?_, ?_, ?_, ?_, ?_⟩
    · unfold ext2fs_file_write
      rw [if_neg (by simp [hI.magic]), if_neg (by simp [hwr]), hloopEq]
      dsimp only
      rw [if_pos hres, hgrowEq]
      simp
    · rw [hposC, hposl]
    · intro _
      rw [hszC, hposl, Nat.max_eq_right (Nat.le_of_lt hlt)]
    · intro h
      exact absurd (by omega : (0 : Nat) + data.length = 0) hres.1
    · intro i hi
      rw [hfbC (st.file.pos + i) (by rw [hposl]; omega)]
      exact hwrl i hi
    · intro o hmax ho
      have hoc : o < stl.file.pos := by
        rw [hposl]
        rw [Nat.max_eq_right (Nat.le_of_lt hlt)] at hmax
        exact hmax
      rw [hfbC o hoc]
      exact hfrl o ho
    · rw [hcfgC, hKl.cfg]
    · rw [hinoC, hKl.ino]
    · rw [hwfC, hKl.wflag]
  · -- the recorded size already covers the cursor (or nothing written)
    refine ⟨stl, ?_, hIl, hposl, ?_, hnill, hwrl, fun o _ ho => hfrl o ho,
            hKl.cfg, hKl.ino, hKl.wflag⟩
    · unfold ext2fs_file_write
      rw [if_neg (by simp [hI.magic]), if_neg (by simp [hwr]), hloopEq]
      dsimp only
      rw [if_neg hres]
      simp
    · intro hlen0
      have hle : st.file.pos + data.length ≤ EXT2_I_SIZE st.file.inode := by
        have h1 : ¬ EXT2_I_SIZE stl.file.inode < stl.file.pos := by
          intro h
          exact hres ⟨by omega, h⟩
        rw [hsizel, hposl] at h1
        omega
      rw [hsizel, Nat.max_eq_left hle]

theorem map_range_getD (f : Nat → Nat) (l : List Nat)
    (h : ∀ i, i < l.length → f i = l.getD i 0) :
    (List.range l.length).map f = l := by
  apply List.ext_getElem
  · simp
  · intro i h1 h2
    simp only [List.getElem_map, List.getElem_range]
    rw [h i h2, List.getD_eq_getElem?_getD, List.getElem?_eq_getElem h2]
    rfl

/-! ## Concrete states used by witnesses and counterexamples -/

/-- A collaborator configuration with 1024-byte blocks, a large
addressable range, and no injected failures. -/
def cfg0 : IoCfg :=
  { s_log_block_size := 0, max_file_block := 2 ^ 53,
    io_read_err := fun _ => 0, io_write_err := fun _ => 0,
    bmap_alloc_err := fun _ => 0 }

/-- A fresh regular-file inode: size 0, no mapped blocks. -/
def inode0 : Ext2Inode :=
  { i_size := 0, i_size_high := 0, i_mode := 0x8000,
    mapping := fun _ => 0, uninit := fun _ => false }

/-- A fresh writable filesystem with a zeroed disk. -/
def fs0 : Ext2Filsys :=
  { cfg := cfg0, flag_rw := true, feature_large_file := false,
    s_rev_level := 1, super_dirty := false, nextAlloc := 0,
    disk := fun _ _ => 0, inodes := fun _ => inode0, punchLog := [] }

/-- A freshly opened writable handle on inode 12 of `fs0`. -/
def file0 : Ext2File :=
  { magic := EXT2_ET_MAGIC_EXT2_FILE, ino := 12, inode := inode0,
    flags := { write := true, create := false,
               buf_valid := false, buf_dirty := false },
    pos := 0, blockno := 0, physblock := 0, buf := fun _ => 0 }

/-- The fresh handle state used by the witnesses. -/
def st0 : St := ⟨fs0, file0⟩

theorem Inv_st0 : Inv st0 :=
  ⟨rfl, fun _ _ hl => absurd rfl hl, fun _ => Nat.le_refl 0,
   fun h => Bool.noConfusion h, fun h => Bool.noConfusion h, by decide⟩

theorem NoErrs_st0 : NoErrs st0.fs.cfg :=
  ⟨fun _ => rfl, fun _ => rfl, fun _ => rfl⟩

/-! ## The claims -/

/-- C1 (amended: restricted to handles attached to a nonzero inode
number — see the counterexample for anonymous handles): on a well-formed
state of a writable handle with non-failing collaborators, the cursor at
`off`, and an addressable target range, writing `data`, seeking back to
`off` and reading `data.length` bytes succeeds and returns exactly the
bytes that were written. -/
theorem C1_round_trip (st : St) (off : Nat) (data : List Nat)
    (hI : Inv st) (hE : NoErrs st.fs.cfg) (hino : st.file.ino ≠ 0)
    (hwr : st.file.flags.write = true) (hpos : st.file.pos = off)
    (hbig : off + data.length ≠ 0 →
      (off + data.length - 1) / st.fs.blocksize ≤
        st.fs.cfg.max_file_block) :
    ∃ st1 st2 st3,
      ext2fs_file_write st data = (0, st1, some data.length) ∧
      ext2fs_file_llseek st1 off 0 = (0, st2, some off) ∧
      ext2fs_file_read st2 data.length = (0, st3, data) := by
  subst hpos
  obtain ⟨st1, hwEq, hI1, hpos1, hsz1, hnil1, hwr1, hfr1, hcfg1, hino1,
          hwf1⟩ := ext2fs_file_write_ok st data hI hE hino hwr hbig
  have hseekEq : ext2fs_file_llseek st1 st.file.pos 0 =
      (0, ⟨st1.fs, { st1.file with pos := st.file.pos }⟩,
       some st.file.pos) := by
    unfold ext2fs_file_llseek
    rw [if_neg (by simp [hI1.magic]), if_pos rfl]
  have hI2 : Inv ⟨st1.fs, { st1.file with pos := st.file.pos }⟩ :=
    ⟨hI1.magic, hI1.mapInj, hI1.mapLe, hI1.physOk, hI1.bufClean,
     hI1.sizeLow⟩
  have hE2 : NoErrs st1.fs.cfg := hcfg1 ▸ hE
  have hino2 : st1.file.ino ≠ 0 := hino1 ▸ hino
  obtain ⟨st3, hrEq, hI3, hK3, hfb3, hpos3⟩ :=
    readLoop_spec data.length ⟨st1.fs, { st1.file with pos := st.file.pos }⟩
      data.length [] hI2 hE2 hino2 (Nat.le_refl _)
  have hn : min data.length
      (EXT2_I_SIZE st1.file.inode - st.file.pos) = data.length := by
    by_cases hl : 0 < data.length
    · have hsz := hsz1 hl
      have h2 : st.file.pos + data.length ≤ EXT2_I_SIZE st1.file.inode := by
        rw [hsz]
        exact Nat.le_max_right _ _
      exact Nat.min_eq_left (by omega)
    · have h0 : data.length = 0 := by omega
      simp [h0]
  have hbytes : (List.range data.length).map
      (fun i => fileByte ⟨st1.fs, { st1.file with pos := st.file.pos }⟩
        (st.file.pos + i)) = data := by
    apply map_range_getD
    intro i hi
    have h1 : fileByte ⟨st1.fs, { st1.file with pos := st.file.pos }⟩
        (st.file.pos + i) = fileByte st1 (st.file.pos + i) := rfl
    rw [h1]
    exact hwr1 i hi
  refine ⟨st1, ⟨st1.fs, { st1.file with pos := st.file.pos }⟩, st3, hwEq,
          hseekEq, ?_⟩
  unfold ext2fs_file_read
  rw [if_neg (by simp [hI1.magic])]
  rw [hrEq]
  show _ = (0, st3, data)
  congr 1
  congr 1
  rw [List.nil_append]
  show (List.range (min data.length
    (EXT2_I_SIZE st1.file.inode - st.file.pos))).map _ = data
  rw [hn, hbytes]

/-- C1 counterexample: on an anonymous handle (inode number 0) the Block
Mapper is never invoked in allocating mode, so a dirty hole block is
written to physical block 0 and lost as soon as the cache moves: writing
the two bytes 97, 98 at offset 1023 (crossing a block boundary), seeking
back and reading two bytes returns 0, 0 — not the bytes written.  The
claim as stated, quantifying over every handle opened for writing, is
therefore false. -/
theorem C1_round_trip_cex :
    (ext2fs_file_read
        (ext2fs_file_llseek
          (ext2fs_file_write ⟨fs0, { file0 with ino := 0, pos := 1023 }⟩
            [97, 98]).2.1 1023 0).2.1 2).2.2 = [0, 0] ∧
    [0, 0] ≠ [97, 98] := by
  constructor
  · rfl
  · decide

/-- C1 witness: the round trip at a concrete fresh handle, writing three
bytes at offset 5. -/
theorem C1_round_trip_witness :
    ∃ st1 st2 st3,
      ext2fs_file_write ⟨fs0, { file0 with pos := 5 }⟩ [7, 8, 9] =
        (0, st1, some 3) ∧
      ext2fs_file_llseek st1 5 0 = (0, st2, some 5) ∧
      ext2fs_file_read st2 3 = (0, st3, [7, 8, 9]) := by
  have hI : Inv ⟨fs0, { file0 with pos := 5 }⟩ :=
    ⟨rfl, fun _ _ hl => absurd rfl hl, fun _ => Nat.le_refl 0,
     fun h => Bool.noConfusion h, fun h => Bool.noConfusion h, by decide⟩
  exact C1_round_trip ⟨fs0, { file0 with pos := 5 }⟩ 5 [7, 8, 9] hI
    ⟨fun _ => rfl, fun _ => rfl, fun _ => rfl⟩ (by decide) rfl rfl
    (fun _ => by decide)

/-- C2: read-modify-write correctness of partial-block writes.  In the
write loop, load_buffer receives `dontfill = (c == fs->blocksize)` —
true exactly when the chunk fills the entire block (see `writeLoop`) —
so a partial write loads the existing block first and overwrites only
the targeted range: after any successful write, every logical byte
below the resulting file size and outside the written byte range keeps
its prior content, in particular the bytes of a partially written block
on either side of the chunk. -/
theorem C2_rmw_frame (st : St) (data : List Nat) (hI : Inv st)
    (hE : NoErrs st.fs.cfg) (hino : st.file.ino ≠ 0)
    (hwr : st.file.flags.write = true)
    (hbig : st.file.pos + data.length ≠ 0 →
      (st.file.pos + data.length - 1) / st.fs.blocksize ≤
        st.fs.cfg.max_file_block) :
    ∀ o, o < max (EXT2_I_SIZE st.file.inode)
        (st.file.pos + data.length) →
      (o < st.file.pos ∨ st.file.pos + data.length ≤ o) →
      fileByte (ext2fs_file_write st data).2.1 o = fileByte st o := by
  obtain ⟨st', hwEq, _, _, _, _, _, hfr, _, _, _⟩ :=
    ext2fs_file_write_ok st data hI hE hino hwr hbig
  intro o hmax ho
  rw [hwEq]
  exact hfr o hmax ho

/-- C2 witness: the spec's scenario — with 20 bytes of prior content in
the first block, writing 10 bytes at offset 5 leaves bytes 2 (inside
[0,5)) and 17 (inside [15,20)) unchanged. -/
theorem C2_rmw_frame_witness :
    fileByte (ext2fs_file_write
      ⟨{ fs0 with nextAlloc := 7 }, { file0 with
              pos := 5,
              inode := { inode0 with
                         i_size := 20,
                         mapping := fun l => if l = 0 then 7 else 0 } }⟩
      [1, 2, 3, 4, 5, 6, 7, 8, 9, 10]).2.1 2 =
      fileByte ⟨{ fs0 with nextAlloc := 7 }, { file0 with
              pos := 5,
              inode := { inode0 with
                         i_size := 20,
                         mapping := fun l => if l = 0 then 7 else 0 } }⟩ 2 ∧
    fileByte (ext2fs_file_write
      ⟨{ fs0 with nextAlloc := 7 }, { file0 with
              pos := 5,
              inode := { inode0 with
                         i_size := 20,
                         mapping := fun l => if l = 0 then 7 else 0 } }⟩
      [1, 2, 3, 4, 5, 6, 7, 8, 9, 10]).2.1 17 =
      fileByte ⟨{ fs0 with nextAlloc := 7 }, { file0 with
              pos := 5,
              inode := { inode0 with
                         i_size := 20,
                         mapping := fun l => if l = 0 then 7 else 0 } }⟩
        17 := by
  have hI : Inv ⟨{ fs0 with nextAlloc := 7 }, { file0 with
      pos := 5,
      inode := { inode0 with
                 i_size := 20,
                 mapping := fun l => if l = 0 then 7 else 0 } }⟩ := by
    refine ⟨rfl, ?_, ?_, fun h => Bool.noConfusion h,
            fun h => Bool.noConfusion h, by decide⟩
    · intro l m hl hlm
      by_cases h1 : l = 0 <;> by_cases h2 : m = 0 <;>
        simp [h1, h2] at hl hlm ⊢
    · intro l
      show (if l = 0 then 7 else 0) ≤ 7
      split <;> omega
  have hE : NoErrs fs0.cfg := ⟨fun _ => rfl, fun _ => rfl, fun _ => rfl⟩
  constructor
  · exact C2_rmw_frame _ [1, 2, 3, 4, 5, 6, 7, 8, 9, 10] hI hE (by decide)
      rfl (fun _ => by decide) 2 (by decide) (Or.inl (by decide))
  · exact C2_rmw_frame _ [1, 2, 3, 4, 5, 6, 7, 8, 9, 10] hI hE (by decide)
      rfl (fun _ => by decide) 17 (by decide) (Or.inr (by decide))

/-- C3: on a well-formed state of a handle on a real inode with
non-failing collaborators, read transfers exactly
`min wanted (size - cursor)` bytes (the truncated subtraction is 0 at or
past end-of-file), advances the cursor by that amount, and reading at or
past end-of-file returns success with zero bytes and an unchanged state,
never an error. -/
theorem C3_read_count (st : St) (wanted : Nat) (hI : Inv st)
    (hE : NoErrs st.fs.cfg) (hino : st.file.ino ≠ 0) :
    (∃ st' out, ext2fs_file_read st wanted = (0, st', out) ∧
      out.length = min wanted
        (EXT2_I_SIZE st.file.inode - st.file.pos) ∧
      st'.file.pos = st.file.pos + out.length) ∧
    (EXT2_I_SIZE st.file.inode ≤ st.file.pos →
      ext2fs_file_read st wanted = (0, st, [])) := by
  constructor
  · obtain ⟨st', hrEq, _, _, _, hpos'⟩ :=
      readLoop_spec wanted st wanted [] hI hE hino (Nat.le_refl _)
    refine ⟨st', (List.range (min wanted
        (EXT2_I_SIZE st.file.inode - st.file.pos))).map
        (fun i => fileByte st (st.file.pos + i)), ?_, ?_, ?_⟩
    · unfold ext2fs_file_read
      rw [if_neg (by simp [hI.magic]), hrEq, List.nil_append]
    · simp
    · rw [hpos']
      congr 1
      simp
  · intro heof
    unfold ext2fs_file_read
    rw [if_neg (by simp [hI.magic])]
    cases wanted with
    | zero => rw [readLoop]
    | succ n =>
      rw [readLoop, if_neg (by
        intro hcontra
        omega)]

/-- C3 witness: reading 5 bytes of a 3-byte file at cursor 0 transfers
3 bytes, and reading at end-of-file (cursor 3) returns success with no
bytes. -/
theorem C3_read_count_witness :
    ((∃ st' out, ext2fs_file_read
        ⟨fs0, { file0 with inode := { inode0 with i_size := 3 } }⟩ 5 =
        (0, st', out) ∧
      out.length = min 5 (EXT2_I_SIZE
        ({ file0 with
           inode := { inode0 with i_size := 3 } } : Ext2File).inode - 0) ∧
      st'.file.pos = 0 + out.length) ∧
    (EXT2_I_SIZE ({ file0 with
        inode := { inode0 with i_size := 3 } } : Ext2File).inode ≤ 0 →
      ext2fs_file_read
        ⟨fs0, { file0 with inode := { inode0 with i_size := 3 } }⟩ 5 =
        (0, ⟨fs0, { file0 with inode := { inode0 with i_size := 3 } }⟩,
         []))) ∧
    ((∃ st' out, ext2fs_file_read
        ⟨fs0, { file0 with
                inode := { inode0 with i_size := 3 },
                pos := 3 }⟩ 5 = (0, st', out) ∧
      out.length = min 5 (EXT2_I_SIZE
        ({ file0 with
           inode := { inode0 with i_size := 3 },
           pos := 3 } : Ext2File).inode - 3) ∧
      st'.file.pos = 3 + out.length) ∧
    (EXT2_I_SIZE ({ file0 with
        inode := { inode0 with i_size := 3 },
        pos := 3 } : Ext2File).inode ≤ 3 →
      ext2fs_file_read
        ⟨fs0, { file0 with
                inode := { inode0 with i_size := 3 },
                pos := 3 }⟩ 5 =
        (0, ⟨fs0, { file0 with
            inode := { inode0 with i_size := 3 },
            pos := 3 }⟩, []))) := by
  constructor
  · exact C3_read_count
      ⟨fs0, { file0 with inode := { inode0 with i_size := 3 } }⟩ 5
      ⟨rfl, fun _ _ hl => absurd rfl hl, fun _ => Nat.le_refl 0,
       fun h => Bool.noConfusion h, fun h => Bool.noConfusion h, by decide⟩
      ⟨fun _ => rfl, fun _ => rfl, fun _ => rfl⟩ (by decide)
  · exact C3_read_count
      ⟨fs0, { file0 with
              inode := { inode0 with i_size := 3 }, pos := 3 }⟩ 5
      ⟨rfl, fun _ _ hl => absurd rfl hl, fun _ => Nat.le_refl 0,
       fun h => Bool.noConfusion h, fun h => Bool.noConfusion h, by decide⟩
      ⟨fun _ => rfl, fun _ => rfl, fun _ => rfl⟩ (by decide)

/-- C4: for any valid writable handle, once the write loop finishes with
code `retval`, state `st1` and transferred count `count`, the epilogue
resizes through `ext2fs_file_set_size2 st1 st1.file.pos` — extending the
recorded size to the cursor — exactly when `count ≠ 0` and the cursor
exceeds the recorded size, with no assumption that the loop succeeded
(the resized state is returned even when `retval ≠ 0`); the resize
return code replaces the loop code only when `retval = 0` (a loop error
takes precedence); and when no byte was transferred or the cursor does
not pass the recorded size, the resize is not invoked and the loop's
code and state are returned as is. -/
theorem C4_resize_precedence (st : St) (data : List Nat)
    (retval : Nat) (st1 : St) (count : Nat)
    (hm : st.file.magic = EXT2_ET_MAGIC_EXT2_FILE)
    (hw : st.file.flags.write = true)
    (hL : writeLoop data.length st data 0 = (retval, st1, count)) :
    (count ≠ 0 ∧ EXT2_I_SIZE st1.file.inode < st1.file.pos →
      ext2fs_file_write st data =
        ((if retval = 0 then
            (ext2fs_file_set_size2 st1 st1.file.pos).1 else retval),
         (ext2fs_file_set_size2 st1 st1.file.pos).2, some count)) ∧
    (¬ (count ≠ 0 ∧ EXT2_I_SIZE st1.file.inode < st1.file.pos) →
      ext2fs_file_write st data = (retval, st1, some count)) := by
  unfold ext2fs_file_write
  rw [if_neg (by simp [hm]), if_neg (by simp [hw]), hL]
  constructor
  · intro hg
    dsimp only
    rw [if_pos hg]
  · intro hg
    dsimp only
    rw [if_neg hg]

/-- C4 witness: the fresh 0-byte file with 3 bytes written at cursor 0
satisfies the resize/precedence characterization of the write epilogue. -/
theorem C4_resize_precedence_witness :
    ((writeLoop 3 st0 [1, 2, 3] 0).2.2 ≠ 0 ∧
      EXT2_I_SIZE (writeLoop 3 st0 [1, 2, 3] 0).2.1.file.inode <
        (writeLoop 3 st0 [1, 2, 3] 0).2.1.file.pos →
      ext2fs_file_write st0 [1, 2, 3] =
        ((if (writeLoop 3 st0 [1, 2, 3] 0).1 = 0 then
            (ext2fs_file_set_size2 (writeLoop 3 st0 [1, 2, 3] 0).2.1
              (writeLoop 3 st0 [1, 2, 3] 0).2.1.file.pos).1
          else (writeLoop 3 st0 [1, 2, 3] 0).1),
         (ext2fs_file_set_size2 (writeLoop 3 st0 [1, 2, 3] 0).2.1
           (writeLoop 3 st0 [1, 2, 3] 0).2.1.file.pos).2,
         some (writeLoop 3 st0 [1, 2, 3] 0).2.2)) ∧
    (¬ ((writeLoop 3 st0 [1, 2, 3] 0).2.2 ≠ 0 ∧
        EXT2_I_SIZE (writeLoop 3 st0 [1, 2, 3] 0).2.1.file.inode <
          (writeLoop 3 st0 [1, 2, 3] 0).2.1.file.pos) →
      ext2fs_file_write st0 [1, 2, 3] =
        ((writeLoop 3 st0 [1, 2, 3] 0).1,
         (writeLoop 3 st0 [1, 2, 3] 0).2.1,
         some (writeLoop 3 st0 [1, 2, 3] 0).2.2)) :=
  C4_resize_precedence st0 [1, 2, 3] (writeLoop 3 st0 [1, 2, 3] 0).1
    (writeLoop 3 st0 [1, 2, 3] 0).2.1 (writeLoop 3 st0 [1, 2, 3] 0).2.2
    rfl rfl rfl

/-- A failing Block Mapper call surfaces a nonzero error code. -/
theorem bmap2_error_ne (fs : Ext2Filsys) (ino : Nat)
    (inodeArg : Option Ext2Inode) (alloc : Bool) (block e : Nat)
    (h : ext2fs_bmap2 fs ino inodeArg alloc block = .error e) : e ≠ 0 := by
  intro h0
  subst h0
  cases inodeArg with
  | some inode =>
    unfold ext2fs_bmap2 at h
    dsimp only at h
    by_cases h1 : inode.mapping block ≠ 0
    · rw [if_pos h1] at h
      exact Except.noConfusion h
    · rw [if_neg h1] at h
      by_cases h2 : ¬ (alloc = true)
      · rw [if_pos h2] at h
        exact Except.noConfusion h
      · rw [if_neg h2] at h
        by_cases h3 : fs.cfg.bmap_alloc_err block ≠ 0
        · rw [if_pos h3] at h
          exact h3 (Except.error.inj h)
        · rw [if_neg h3] at h
          exact Except.noConfusion h
  | none =>
    unfold ext2fs_bmap2 at h
    dsimp only at h
    by_cases h1 : ino = 0
    · rw [if_pos h1] at h
      exact absurd (Except.error.inj h) (by decide)
    · rw [if_neg h1] at h
      by_cases h2 : (fs.inodes ino).mapping block ≠ 0
      · rw [if_pos h2] at h
        exact Except.noConfusion h
      · rw [if_neg h2] at h
        by_cases h3 : ¬ (alloc = true)
        · rw [if_pos h3] at h
          exact Except.noConfusion h
        · rw [if_neg h3] at h
          by_cases h4 : fs.cfg.bmap_alloc_err block ≠ 0
          · rw [if_pos h4] at h
            exact h4 (Except.error.inj h)
          · rw [if_neg h4] at h
            exact Except.noConfusion h

/-- A failing Block Channel write surfaces a nonzero error code. -/
theorem io_write_error_ne (fs : Ext2Filsys) (blk : Nat) (buf : Nat → Nat)
    (e : Nat) (h : io_channel_write_blk64 fs blk buf = .error e) : e ≠ 0 := by
  unfold io_channel_write_blk64 at h
  split at h
  · rename_i hg
    obtain rfl := (Except.error.inj h).symm
    exact hg
  · exact absurd h (by simp)

/-- A successful Block Channel write installs the bytes at the block. -/
theorem io_write_ok_disk (fs : Ext2Filsys) (blk : Nat) (buf : Nat → Nat)
    (fs' : Ext2Filsys) (h : io_channel_write_blk64 fs blk buf = .ok fs') :
    fs'.disk blk = buf := by
  unfold io_channel_write_blk64 at h
  split at h
  · exact absurd h (by simp)
  · obtain rfl := (Except.ok.inj h).symm
    exact if_pos rfl

/-- C5: for a valid handle, flush is a no-op returning success unless the
cache is both valid and dirty; the slab contents and the cache-valid flag
always survive the call; on any error the dirty flag keeps its prior
value (so a dirty cache stays dirty and a later flush can retry); and
when flush really runs (cache valid and dirty), the dirty flag ends up
cleared exactly when the call succeeds, in which case the slab has been
written to the cached physical block. -/
theorem C5_flush_dirty (st : St) (r : Nat) (st' : St)
    (hm : st.file.magic = EXT2_ET_MAGIC_EXT2_FILE)
    (hF : ext2fs_file_flush st = (r, st')) :
    (¬ (st.file.flags.buf_valid ∧ st.file.flags.buf_dirty) →
      r = 0 ∧ st' = st) ∧
    st'.file.buf = st.file.buf ∧
    st'.file.flags.buf_valid = st.file.flags.buf_valid ∧
    (r ≠ 0 → st'.file.flags.buf_dirty = st.file.flags.buf_dirty) ∧
    (st.file.flags.buf_valid ∧ st.file.flags.buf_dirty →
      (st'.file.flags.buf_dirty = false ↔ r = 0) ∧
      (r = 0 → st'.fs.disk st'.file.physblock = st.file.buf)) := by
  unfold ext2fs_file_flush at hF
  rw [if_neg (by simp [hm])] at hF
  by_cases hvd : (st.file.flags.buf_valid ∧ st.file.flags.buf_dirty)
  · rw [if_neg (not_not_intro hvd)] at hF
    split at hF
    · rename_i e heq
      obtain ⟨rfl, rfl⟩ := Prod.mk.inj hF
      have hne : e ≠ 0 := by
        by_cases hpb : st.file.physblock = 0
        · rw [if_pos hpb] at heq
          exact bmap2_error_ne _ _ _ _ _ _ heq
        · rw [if_neg hpb] at heq
          exact absurd heq (by simp)
      refine ⟨fun h => absurd hvd h, rfl, rfl, fun _ => rfl, fun _ => ?_⟩
      refine ⟨?_, fun h0 => absurd h0 hne⟩
      constructor
      · intro hfalse
        have := hvd.2
        rw [hfalse] at this
        exact Bool.noConfusion this
      · intro h0
        exact absurd h0 hne
    · rename_i fs1 inode1 u phys heq
      dsimp only at hF
      split at hF
      · rename_i e2 heq2
        obtain ⟨rfl, rfl⟩ := Prod.mk.inj hF
        have hne : e2 ≠ 0 := io_write_error_ne _ _ _ _ heq2
        refine ⟨fun h => absurd hvd h, rfl, rfl, fun _ => rfl, fun _ => ?_⟩
        refine ⟨?_, fun h0 => absurd h0 hne⟩
        constructor
        · intro hfalse
          have := hvd.2
          rw [hfalse] at this
          exact Bool.noConfusion this
        · intro h0
          exact absurd h0 hne
      · rename_i fs2 heq2
        obtain ⟨rfl, rfl⟩ := Prod.mk.inj hF
        refine ⟨fun h => absurd hvd h, rfl, rfl, fun h => absurd rfl h,
                fun _ => ⟨by simp, fun _ => io_write_ok_disk _ _ _ _ heq2⟩⟩
  · rw [if_pos hvd] at hF
    obtain ⟨rfl, rfl⟩ := Prod.mk.inj hF
    exact ⟨fun _ => ⟨rfl, rfl⟩, rfl, rfl, fun _ => rfl,
           fun h => absurd h hvd⟩

/-- C5 witness: a valid dirty cache over physical block 5 with a
non-failing channel — flush writes the slab and clears the dirty flag. -/
theorem C5_flush_dirty_witness :
    (¬ ((⟨fs0, { file0 with
          flags := { write := true, create := false,
                     buf_valid := true, buf_dirty := true },
          physblock := 5 }⟩ : St).file.flags.buf_valid ∧
        (⟨fs0, { file0 with
          flags := { write := true, create := false,
                     buf_valid := true, buf_dirty := true },
          physblock := 5 }⟩ : St).file.flags.buf_dirty) →
      (ext2fs_file_flush ⟨fs0, { file0 with
          flags := { write := true, create := false,
                     buf_valid := true, buf_dirty := true },
          physblock := 5 }⟩).1 = 0 ∧
      (ext2fs_file_flush ⟨fs0, { file0 with
          flags := { write := true, create := false,
                     buf_valid := true, buf_dirty := true },
          physblock := 5 }⟩).2 =
        ⟨fs0, { file0 with
          flags := { write := true, create := false,
                     buf_valid := true, buf_dirty := true },
          physblock := 5 }⟩) ∧
    (ext2fs_file_flush ⟨fs0, { file0 with
        flags := { write := true, create := false,
                   buf_valid := true, buf_dirty := true },
        physblock := 5 }⟩).2.file.buf =
      (⟨fs0, { file0 with
        flags := { write := true, create := false,
                   buf_valid := true, buf_dirty := true },
        physblock := 5 }⟩ : St).file.buf ∧
    (ext2fs_file_flush ⟨fs0, { file0 with
        flags := { write := true, create := false,
                   buf_valid := true, buf_dirty := true },
        physblock := 5 }⟩).2.file.flags.buf_valid =
      (⟨fs0, { file0 with
        flags := { write := true, create := false,
                   buf_valid := true, buf_dirty := true },
        physblock := 5 }⟩ : St).file.flags.buf_valid ∧
    ((ext2fs_file_flush ⟨fs0, { file0 with
        flags := { write := true, create := false,
                   buf_valid := true, buf_dirty := true },
        physblock := 5 }⟩).1 ≠ 0 →
      (ext2fs_file_flush ⟨fs0, { file0 with
          flags := { write := true, create := false,
                     buf_valid := true, buf_dirty := true },
          physblock := 5 }⟩).2.file.flags.buf_dirty =
        (⟨fs0, { file0 with
          flags := { write := true, create := false,
                     buf_valid := true, buf_dirty := true },
          physblock := 5 }⟩ : St).file.flags.buf_dirty) ∧
    ((⟨fs0, { file0 with
        flags := { write := true, create := false,
                   buf_valid := true, buf_dirty := true },
        physblock := 5 }⟩ : St).file.flags.buf_valid ∧
     (⟨fs0, { file0 with
        flags := { write := true, create := false,
                   buf_valid := true, buf_dirty := true },
        physblock := 5 }⟩ : St).file.flags.buf_dirty →
      ((ext2fs_file_flush ⟨fs0, { file0 with
          flags := { write := true, create := false,
                     buf_valid := true, buf_dirty := true },
          physblock := 5 }⟩).2.file.flags.buf_dirty = false ↔
        (ext2fs_file_flush ⟨fs0, { file0 with
          flags := { write := true, create := false,
                     buf_valid := true, buf_dirty := true },
          physblock := 5 }⟩).1 = 0) ∧
      ((ext2fs_file_flush ⟨fs0, { file0 with
          flags := { write := true, create := false,
                     buf_valid := true, buf_dirty := true },
          physblock := 5 }⟩).1 = 0 →
        (ext2fs_file_flush ⟨fs0, { file0 with
            flags := { write := true, create := false,
                       buf_valid := true, buf_dirty := true },
            physblock := 5 }⟩).2.fs.disk
          (ext2fs_file_flush ⟨fs0, { file0 with
              flags := { write := true, create := false,
                         buf_valid := true, buf_dirty := true },
              physblock := 5 }⟩).2.file.physblock =
          (⟨fs0, { file0 with
            flags := { write := true, create := false,
                       buf_valid := true, buf_dirty := true },
            physblock := 5 }⟩ : St).file.buf)) :=
  C5_flush_dirty
    ⟨fs0, { file0 with
      flags := { write := true, create := false,
                 buf_valid := true, buf_dirty := true },
      physblock := 5 }⟩
    (ext2fs_file_flush ⟨fs0, { file0 with
      flags := { write := true, create := false,
                 buf_valid := true, buf_dirty := true },
      physblock := 5 }⟩).1
    (ext2fs_file_flush ⟨fs0, { file0 with
      flags := { write := true, create := false,
                 buf_valid := true, buf_dirty := true },
      physblock := 5 }⟩).2
    rfl rfl

/-- C6 (amended: restricted to handles attached to a nonzero inode
number — see the counterexample for anonymous handles): on a well-formed
state with non-failing collaborators whose cached physical block is 0 at
flush time (a hole), flush obtains a fresh physical block from the Block
Mapper in allocating mode (the allocator's next block), persists the new
mapping into the inode snapshot, writes the slab to that nonzero block,
and leaves physical block 0 untouched. -/
theorem C6_flush_hole_alloc (st : St) (hI : Inv st) (hE : NoErrs st.fs.cfg)
    (hino : st.file.ino ≠ 0) (hpb : st.file.physblock = 0)
    (hv : st.file.flags.buf_valid = true)
    (hd : st.file.flags.buf_dirty = true) :
    ∃ st', ext2fs_file_flush st = (0, st') ∧
      st'.file.physblock = st.fs.nextAlloc + 1 ∧
      st'.file.physblock ≠ 0 ∧
      st'.file.inode.mapping st.file.blockno = st'.file.physblock ∧
      st'.fs.disk st'.file.physblock = st.file.buf ∧
      st'.fs.disk 0 = st.fs.disk 0 := by
  obtain ⟨hR, hW, hA⟩ := hE
  have hm0 : st.file.inode.mapping st.file.blockno = 0 := by
    have := hI.physOk hv
    rw [hpb] at this
    exact this.symm
  refine ⟨⟨{ st.fs with
             nextAlloc := st.fs.nextAlloc + 1,
             disk := fun b => if b = st.fs.nextAlloc + 1 then st.file.buf
                              else st.fs.disk b },
           { st.file with
             inode := { st.file.inode with
                        mapping := fun l => if l = st.file.blockno then
                            st.fs.nextAlloc + 1
                          else st.file.inode.mapping l },
             physblock := st.fs.nextAlloc + 1,
             flags := { st.file.flags with buf_dirty := false } }⟩,
         ?_, rfl, Nat.succ_ne_zero _, if_pos rfl, if_pos rfl, ?_⟩
  · unfold ext2fs_file_flush ext2fs_bmap2 io_channel_write_blk64
    simp [hI.magic, hv, hd, hpb, hm0, hA, hW, hino]
  · dsimp only
    exact if_neg (by omega)

/-- C6 counterexample: an anonymous handle (inode number 0) with a valid
dirty cache over a hole — the mapper is consulted without the allocating
flag (`file->ino ? BMAP_ALLOC : 0`), returns physical block 0, and flush
writes the slab to physical block 0. -/
theorem C6_flush_hole_alloc_cex :
    (ext2fs_file_flush ⟨fs0, { file0 with
        ino := 0,
        flags := { write := true, create := false,
                   buf_valid := true, buf_dirty := true },
        buf := fun _ => 1 }⟩).1 = 0 ∧
    (⟨fs0, { file0 with
        ino := 0,
        flags := { write := true, create := false,
                   buf_valid := true, buf_dirty := true },
        buf := fun _ => 1 }⟩ : St).file.physblock = 0 ∧
    (ext2fs_file_flush ⟨fs0, { file0 with
        ino := 0,
        flags := { write := true, create := false,
                   buf_valid := true, buf_dirty := true },
        buf := fun _ => 1 }⟩).2.fs.disk 0 0 = 1 ∧
    fs0.disk 0 0 = 0 :=
  ⟨rfl, rfl, rfl, rfl⟩

/-- C6 witness: a fresh writable handle on inode 12 with a valid dirty
cache over the hole at logical block 0 — flush allocates physical block
1, maps it, writes the slab there, and leaves block 0 alone. -/
theorem C6_flush_hole_alloc_witness :
    ∃ st', ext2fs_file_flush ⟨fs0, { file0 with
        flags := { write := true, create := false,
                   buf_valid := true, buf_dirty := true } }⟩ = (0, st') ∧
      st'.file.physblock = fs0.nextAlloc + 1 ∧
      st'.file.physblock ≠ 0 ∧
      st'.file.inode.mapping
        (⟨fs0, { file0 with
            flags := { write := true, create := false,
                       buf_valid := true, buf_dirty := true } }⟩ :
          St).file.blockno = st'.file.physblock ∧
      st'.fs.disk st'.file.physblock =
        (⟨fs0, { file0 with
            flags := { write := true, create := false,
                       buf_valid := true, buf_dirty := true } }⟩ :
          St).file.buf ∧
      st'.fs.disk 0 = fs0.disk 0 :=
  C6_flush_hole_alloc
    ⟨fs0, { file0 with
        flags := { write := true, create := false,
                   buf_valid := true, buf_dirty := true } }⟩
    ⟨rfl, fun _ _ hl => absurd rfl hl, fun _ => Nat.le_refl 0,
     fun _ => rfl, fun _ hd => Bool.noConfusion hd, by decide⟩
    ⟨fun _ => rfl, fun _ => rfl, fun _ => rfl⟩
    (by decide) rfl rfl rfl

/-- A successful Block Mapper call leaves every filesystem field except
the allocator cursor unchanged. -/
theorem bmap2_ok_fs_fields (fs : Ext2Filsys) (ino : Nat)
    (inodeArg : Option Ext2Inode) (alloc : Bool) (block : Nat)
    (fs1 : Ext2Filsys) (inode1 : Ext2Inode) (u : Bool) (p : Nat)
    (h : ext2fs_bmap2 fs ino inodeArg alloc block =
      .ok (fs1, inode1, u, p)) :
    fs1.feature_large_file = fs.feature_large_file ∧
    fs1.super_dirty = fs.super_dirty ∧
    fs1.punchLog = fs.punchLog ∧
    fs1.cfg = fs.cfg ∧
    fs1.inodes = fs.inodes := by
  cases inodeArg with
  | some inode =>
    unfold ext2fs_bmap2 at h
    dsimp only at h
    by_cases h1 : inode.mapping block ≠ 0
    · rw [if_pos h1] at h
      obtain ⟨hfs, -⟩ := Prod.mk.inj (Except.ok.inj h)
      rw [← hfs]
      exact ⟨rfl, rfl, rfl, rfl, rfl⟩
    · rw [if_neg h1] at h
      by_cases h2 : ¬ (alloc = true)
      · rw [if_pos h2] at h
        obtain ⟨hfs, -⟩ := Prod.mk.inj (Except.ok.inj h)
        rw [← hfs]
        exact ⟨rfl, rfl, rfl, rfl, rfl⟩
      · rw [if_neg h2] at h
        by_cases h3 : fs.cfg.bmap_alloc_err block ≠ 0
        · rw [if_pos h3] at h
          exact Except.noConfusion h
        · rw [if_neg h3] at h
          obtain ⟨hfs, -⟩ := Prod.mk.inj (Except.ok.inj h)
          rw [← hfs]
          exact ⟨rfl, rfl, rfl, rfl, rfl⟩
  | none =>
    unfold ext2fs_bmap2 at h
    dsimp only at h
    by_cases h1 : ino = 0
    · rw [if_pos h1] at h
      exact Except.noConfusion h
    · rw [if_neg h1] at h
      by_cases h2 : (fs.inodes ino).mapping block ≠ 0
      · rw [if_pos h2] at h
        obtain ⟨hfs, -⟩ := Prod.mk.inj (Except.ok.inj h)
        rw [← hfs]
        exact ⟨rfl, rfl, rfl, rfl, rfl⟩
      · rw [if_neg h2] at h
        by_cases h3 : ¬ (alloc = true)
        · rw [if_pos h3] at h
          obtain ⟨hfs, -⟩ := Prod.mk.inj (Except.ok.inj h)
          rw [← hfs]
          exact ⟨rfl, rfl, rfl, rfl, rfl⟩
        · rw [if_neg h3] at h
          by_cases h4 : fs.cfg.bmap_alloc_err block ≠ 0
          · rw [if_pos h4] at h
            exact Except.noConfusion h
          · rw [if_neg h4] at h
            obtain ⟨hfs, -⟩ := Prod.mk.inj (Except.ok.inj h)
            rw [← hfs]
            exact ⟨rfl, rfl, rfl, rfl, rfl⟩

/-- A successful Block Channel write changes only the disk contents. -/
theorem io_write_ok_fs_fields (fs : Ext2Filsys) (blk : Nat)
    (buf : Nat → Nat) (fs' : Ext2Filsys)
    (h : io_channel_write_blk64 fs blk buf = .ok fs') :
    fs'.feature_large_file = fs.feature_large_file ∧
    fs'.super_dirty = fs.super_dirty ∧
    fs'.punchLog = fs.punchLog ∧
    fs'.cfg = fs.cfg ∧
    fs'.inodes = fs.inodes := by
  unfold io_channel_write_blk64 at h
  split at h
  · exact Except.noConfusion h
  · obtain rfl := (Except.ok.inj h).symm
    exact ⟨rfl, rfl, rfl, rfl, rfl⟩

/-- In every outcome, flush changes no filesystem field beyond the
allocator cursor and the disk contents, and keeps the handle's inode
number. -/
theorem flush_fs_fields (st : St) :
    (ext2fs_file_flush st).2.fs.feature_large_file =
      st.fs.feature_large_file ∧
    (ext2fs_file_flush st).2.fs.super_dirty = st.fs.super_dirty ∧
    (ext2fs_file_flush st).2.fs.punchLog = st.fs.punchLog ∧
    (ext2fs_file_flush st).2.fs.cfg = st.fs.cfg ∧
    (ext2fs_file_flush st).2.fs.inodes = st.fs.inodes ∧
    (ext2fs_file_flush st).2.file.ino = st.file.ino := by
  unfold ext2fs_file_flush
  by_cases hm : st.file.magic ≠ EXT2_ET_MAGIC_EXT2_FILE
  · rw [if_pos hm]
    exact ⟨rfl, rfl, rfl, rfl, rfl, rfl⟩
  · rw [if_neg hm]
    by_cases hvd : ¬ (st.file.flags.buf_valid ∧ st.file.flags.buf_dirty)
    · rw [if_pos hvd]
      exact ⟨rfl, rfl, rfl, rfl, rfl, rfl⟩
    · rw [if_neg hvd]
      by_cases hpb : st.file.physblock = 0
      · rw [if_pos hpb]
        rcases hB : ext2fs_bmap2 st.fs st.file.ino (some st.file.inode)
            (st.file.ino ≠ 0) st.file.blockno with e | res
        · exact ⟨rfl, rfl, rfl, rfl, rfl, rfl⟩
        · obtain ⟨fs1, inode1, u, phys⟩ := res
          obtain ⟨b1, b2, b3, b4, b5⟩ :=
            bmap2_ok_fs_fields _ _ _ _ _ _ _ _ _ hB
          dsimp only
          rcases hW : io_channel_write_blk64 fs1 phys st.file.buf
            with e2 | fs2
          · exact ⟨b1, b2, b3, b4, b5, rfl⟩
          · obtain ⟨g1, g2, g3, g4, g5⟩ :=
              io_write_ok_fs_fields _ _ _ _ hW
            exact ⟨g1.trans b1, g2.trans b2, g3.trans b3, g4.trans b4,
                   g5.trans b5, rfl⟩
      · rw [if_neg hpb]
        dsimp only
        rcases hW : io_channel_write_blk64 st.fs st.file.physblock
            st.file.buf with e2 | fs2
        · exact ⟨rfl, rfl, rfl, rfl, rfl, rfl⟩
        · obtain ⟨g1, g2, g3, g4, g5⟩ := io_write_ok_fs_fields _ _ _ _ hW
          exact ⟨g1, g2, g3, g4, g5, rfl⟩

/-- In every outcome, syncing the buffer position changes no filesystem
field beyond the allocator cursor and the disk contents, and keeps the
handle's inode number. -/
theorem sync_fs_fields (st : St) :
    (sync_buffer_position st).2.fs.feature_large_file =
      st.fs.feature_large_file ∧
    (sync_buffer_position st).2.fs.super_dirty = st.fs.super_dirty ∧
    (sync_buffer_position st).2.fs.punchLog = st.fs.punchLog ∧
    (sync_buffer_position st).2.fs.cfg = st.fs.cfg ∧
    (sync_buffer_position st).2.fs.inodes = st.fs.inodes ∧
    (sync_buffer_position st).2.file.ino = st.file.ino := by
  unfold sync_buffer_position
  by_cases hb : st.file.pos / st.fs.blocksize ≠ st.file.blockno
  · rw [if_pos hb]
    obtain ⟨f1, f2, f3, f4, f5, f6⟩ := flush_fs_fields st
    rcases hF : ext2fs_file_flush st with ⟨r, st1⟩
    rw [hF] at f1 f2 f3 f4 f5 f6
    dsimp only
    by_cases hr : r ≠ 0
    · rw [if_pos hr]
      exact ⟨f1, f2, f3, f4, f5, f6⟩
    · rw [if_neg hr]
      exact ⟨f1, f2, f3, f4, f5, f6⟩
  · rw [if_neg hb]
    exact ⟨rfl, rfl, rfl, rfl, rfl, rfl⟩

/-- In every outcome, zeroing past an offset changes no filesystem field
beyond the allocator cursor and the disk contents, and keeps the
handle's inode number. -/
theorem zero_past_fs_fields (st : St) (offset : Nat) :
    (ext2fs_file_zero_past_offset st offset).2.fs.feature_large_file =
      st.fs.feature_large_file ∧
    (ext2fs_file_zero_past_offset st offset).2.fs.super_dirty =
      st.fs.super_dirty ∧
    (ext2fs_file_zero_past_offset st offset).2.fs.punchLog =
      st.fs.punchLog ∧
    (ext2fs_file_zero_past_offset st offset).2.fs.cfg = st.fs.cfg ∧
    (ext2fs_file_zero_past_offset st offset).2.fs.inodes = st.fs.inodes ∧
    (ext2fs_file_zero_past_offset st offset).2.file.ino =
      st.file.ino := by
  unfold ext2fs_file_zero_past_offset
  dsimp only
  by_cases h0 : offset % st.fs.blocksize = 0
  · rw [if_pos h0]
    exact ⟨rfl, rfl, rfl, rfl, rfl, rfl⟩
  · rw [if_neg h0]
    obtain ⟨s1, s2, s3, s4, s5, s6⟩ := sync_fs_fields st
    rcases hS : sync_buffer_position st with ⟨r1, st1⟩
    rw [hS] at s1 s2 s3 s4 s5 s6
    dsimp only
    by_cases hr1 : r1 ≠ 0
    · rw [if_pos hr1]
      exact ⟨s1, s2, s3, s4, s5, s6⟩
    · rw [if_neg hr1]
      rcases hB : ext2fs_bmap2 st1.fs st1.file.ino none false
          (offset / st.fs.blocksize) with e | res
      · exact ⟨s1, s2, s3, s4, s5, s6⟩
      · obtain ⟨fs2, i2, u2, blk⟩ := res
        obtain ⟨b1, b2, b3, b4, b5⟩ :=
          bmap2_ok_fs_fields _ _ _ _ _ _ _ _ _ hB
        dsimp only
        by_cases hbu : blk = 0 ∨ u2 = true
        · rw [if_pos hbu]
          exact ⟨b1.trans s1, b2.trans s2, b3.trans s3, b4.trans s4,
                 b5.trans s5, s6⟩
        · rw [if_neg hbu]
          rcases hR : io_channel_read_blk64 fs2 blk with e | bb
          · exact ⟨b1.trans s1, b2.trans s2, b3.trans s3, b4.trans s4,
                   b5.trans s5, s6⟩
          · dsimp only
            rcases hW : io_channel_write_blk64 fs2 blk
                (fun i => if offset % st.fs.blocksize ≤ i ∧
                    i < st.fs.blocksize then 0
                  else bb i) with e | fs3
            · exact ⟨b1.trans s1, b2.trans s2, b3.trans s3, b4.trans s4,
                     b5.trans s5, s6⟩
            · obtain ⟨g1, g2, g3, g4, g5⟩ :=
                io_write_ok_fs_fields _ _ _ _ hW
              exact ⟨(g1.trans b1).trans s1, (g2.trans b2).trans s2,
                     (g3.trans b3).trans s3, (g4.trans b4).trans s4,
                     (g5.trans b5).trans s5, s6⟩

/-- Past the early checks, the large-file flag and the superblock dirty
bit of the state ext2fs_file_set_size2 returns — in every outcome,
errors included — are exactly those produced by the feature step on the
entry state. -/
theorem set_size2_fs_step (st : St) (size : Nat)
    (hm : st.file.magic = EXT2_ET_MAGIC_EXT2_FILE)
    (hbig : ¬ (size ≠ 0 ∧ ext2fs_file_block_offset_too_big st.fs
        st.file.inode ((size - 1) / st.fs.blocksize))) :
    (ext2fs_file_set_size2 st size).2.fs.feature_large_file =
      (set_size2_large_file_step st.fs st.file.inode).feature_large_file ∧
    (ext2fs_file_set_size2 st size).2.fs.super_dirty =
      (set_size2_large_file_step st.fs st.file.inode).super_dirty := by
  unfold ext2fs_file_set_size2
  rw [if_neg (by simp [hm]), if_neg hbig]
  dsimp only
  by_cases hino : st.file.ino ≠ 0
  · rw [if_pos hino]
    unfold ext2fs_write_inode
    dsimp only
    split
    · exact ⟨(zero_past_fs_fields _ _).1, (zero_past_fs_fields _ _).2.1⟩
    · split
      · exact ⟨(zero_past_fs_fields _ _).1, (zero_past_fs_fields _ _).2.1⟩
      · unfold ext2fs_punch
        dsimp only
        exact ⟨(zero_past_fs_fields _ _).1, (zero_past_fs_fields _ _).2.1⟩
  · rw [if_neg hino]
    dsimp only
    split
    · exact ⟨(zero_past_fs_fields _ _).1, (zero_past_fs_fields _ _).2.1⟩
    · split
      · exact ⟨(zero_past_fs_fields _ _).1, (zero_past_fs_fields _ _).2.1⟩
      · unfold ext2fs_punch
        dsimp only
        exact ⟨(zero_past_fs_fields _ _).1, (zero_past_fs_fields _ _).2.1⟩

/-- C7 (amended: the code tests the size recorded in the inode *before*
the update — not the target size — and only for regular files; see the
counterexample): for a valid handle on a regular file whose currently
recorded size requires the large-file feature while the feature is
absent or the revision is good-old, set_size activates the flag and
marks the superblock dirty; and no set_size call ever clears an active
flag (one-way upgrade). -/
theorem C7_large_file_one_way (st : St) (size : Nat) :
    (st.file.magic = EXT2_ET_MAGIC_EXT2_FILE →
      ¬ (size ≠ 0 ∧ ext2fs_file_block_offset_too_big st.fs st.file.inode
          ((size - 1) / st.fs.blocksize)) →
      (LINUX_S_ISREG st.file.inode.i_mode ∧
       ext2fs_needs_large_file_feature (EXT2_I_SIZE st.file.inode) ∧
       (¬ st.fs.feature_large_file ∨ st.fs.s_rev_level = 0)) →
      (ext2fs_file_set_size2 st size).2.fs.feature_large_file = true ∧
      (ext2fs_file_set_size2 st size).2.fs.super_dirty = true) ∧
    (st.fs.feature_large_file = true →
      (ext2fs_file_set_size2 st size).2.fs.feature_large_file = true) := by
  constructor
  · intro hm hbig hguard
    obtain ⟨hfe, hsd⟩ := set_size2_fs_step st size hm hbig
    obtain ⟨hf, hs⟩ := (large_file_step_spec st.fs st.file.inode).1 hguard
    exact ⟨hfe.trans hf, hsd.trans hs⟩
  · intro hf
    by_cases hm : st.file.magic = EXT2_ET_MAGIC_EXT2_FILE
    · by_cases hbig : size ≠ 0 ∧ ext2fs_file_block_offset_too_big st.fs
          st.file.inode ((size - 1) / st.fs.blocksize)
      · have hEq : ext2fs_file_set_size2 st size =
            (EXT2_ET_FILE_TOO_BIG, st) := by
          unfold ext2fs_file_set_size2
          rw [if_neg (by simp [hm]), if_pos hbig]
        rw [hEq]
        exact hf
      · obtain ⟨hfe, -⟩ := set_size2_fs_step st size hm hbig
        rw [hfe]
        exact (large_file_step_spec st.fs st.file.inode).2.2 hf
    · have hEq : ext2fs_file_set_size2 st size =
          (EXT2_ET_MAGIC_EXT2_FILE, st) := by
        unfold ext2fs_file_set_size2
        rw [if_pos hm]
      rw [hEq]
      exact hf

/-- C7 counterexample: resizing a regular file of recorded size 0 to
2^32 — the *target* size requires the large-file feature and the flag is
absent, the call succeeds, yet the flag stays clear, because the code
consults the old recorded size. -/
theorem C7_large_file_one_way_cex :
    ext2fs_needs_large_file_feature (2 ^ 32) = true ∧
    LINUX_S_ISREG 32768 = true ∧
    fs0.feature_large_file = false ∧
    EXT2_I_SIZE ((⟨fs0, { file0 with
        inode := { inode0 with i_mode := 32768 } }⟩ : St).file.inode) = 0 ∧
    (ext2fs_file_set_size2 ⟨fs0, { file0 with
        inode := { inode0 with i_mode := 32768 } }⟩ (2 ^ 32)).1 = 0 ∧
    (ext2fs_file_set_size2 ⟨fs0, { file0 with
        inode := { inode0 with i_mode := 32768 } }⟩
        (2 ^ 32)).2.fs.feature_large_file = false :=
  ⟨by decide, by decide, rfl, rfl, rfl, rfl⟩

/-- C7 witness: a regular file whose recorded size is already 2^32 on a
filesystem without the feature — a set_size (to 0) activates the flag
and dirties the superblock; and the monotone conjunct at a state with
the flag active. -/
theorem C7_large_file_one_way_witness :
    (ext2fs_file_set_size2 ⟨fs0, { file0 with
        inode := { inode0 with
                   i_size_high := 1, i_mode := 32768 } }⟩ 0).2.fs.feature_large_file =
      true ∧
    (ext2fs_file_set_size2 ⟨fs0, { file0 with
        inode := { inode0 with
                   i_size_high := 1, i_mode := 32768 } }⟩ 0).2.fs.super_dirty = true :=
  (C7_large_file_one_way
    ⟨fs0, { file0 with
        inode := { inode0 with i_size_high := 1, i_mode := 32768 } }⟩ 0).1
    rfl (by decide) ⟨by decide, by decide, Or.inl (by decide)⟩

/-- C8: on a well-formed state of a handle on a real inode with
non-failing collaborators and an addressable target, set_size succeeds
and punches exactly when the new block count (ceiling of the size over
the block size) is strictly below the old one: pure growth or a
same-block-count resize leaves the deallocation log untouched, a
shrinking resize records exactly one punch of the range from the new
block count through the maximum address (2^64 - 1); and a set_size to
the unchanged size — when the cache holds no unflushed hole, as in every
state the interface reaches — deallocates nothing and returns the inode
snapshot unchanged (the size fields are rewritten with identical
values). -/
theorem C8_truncate_punch (st : St) (size : Nat) (hI : Inv st)
    (hE : NoErrs st.fs.cfg) (hino : st.file.ino ≠ 0)
    (hbig : ¬ (size ≠ 0 ∧ ext2fs_file_block_offset_too_big st.fs
        st.file.inode ((size - 1) / st.fs.blocksize))) :
    ∃ st', ext2fs_file_set_size2 st size = (0, st') ∧
      ((size + st.fs.blocksize - 1) / st.fs.blocksize ≥
         (EXT2_I_SIZE st.file.inode + st.fs.blocksize - 1) /
           st.fs.blocksize →
        st'.fs.punchLog = st.fs.punchLog) ∧
      ((size + st.fs.blocksize - 1) / st.fs.blocksize <
         (EXT2_I_SIZE st.file.inode + st.fs.blocksize - 1) /
           st.fs.blocksize →
        st'.fs.punchLog =
          (st.file.ino, (size + st.fs.blocksize - 1) / st.fs.blocksize,
           2 ^ 64 - 1) :: st.fs.punchLog) ∧
      (size = EXT2_I_SIZE st.file.inode →
        (st.file.flags.buf_dirty = true → st.file.physblock ≠ 0) →
        st'.file.inode = st.file.inode ∧
        st'.fs.punchLog = st.fs.punchLog) := by
  obtain ⟨hcfgA, hdiskA, hinodesA, hallocA, hpunchA, hrwA⟩ :=
    large_file_step_fields st.fs st.file.inode
  have hstB : ∃ stB : St,
      stB = ⟨{ set_size2_large_file_step st.fs st.file.inode with
               inodes := fun i => if i = st.file.ino then
                   { st.file.inode with
                     i_size := size % 2 ^ 32, i_size_high := size / 2 ^ 32 }
                 else (set_size2_large_file_step st.fs st.file.inode).inodes
                   i },
             { st.file with
               inode := { st.file.inode with
                          i_size := size % 2 ^ 32,
                          i_size_high := size / 2 ^ 32 } }⟩ := ⟨_, rfl⟩
  obtain ⟨stB, hstBdef⟩ := hstB
  have hIB : Inv stB := by
    rw [hstBdef]
    refine ⟨hI.magic, hI.mapInj, ?_, hI.physOk, ?_, ?_⟩
    · intro l
      have := hI.mapLe l
      simpa [hallocA] using this
    · intro hv hd
      have := hI.bufClean hv hd
      dsimp only
      rw [hdiskA]
      exact this
    · exact Nat.mod_lt _ (by norm_num)
  have hEB : NoErrs stB.fs.cfg := by
    rw [hstBdef]
    show NoErrs
      ((set_size2_large_file_step st.fs st.file.inode).cfg)
    rw [hcfgA]
    exact hE
  have hinoB : stB.file.ino ≠ 0 := by rw [hstBdef]; exact hino
  have hinodesB : stB.fs.inodes stB.file.ino = stB.file.inode := by
    rw [hstBdef]
    simp
  obtain ⟨stC, hzpEq, hKC, hfbC, hposC, hIC, hinodeC, hsameC⟩ :=
    zero_past_ok stB size hIB hEB hinoB hinodesB
  have hplog : stC.fs.punchLog = st.fs.punchLog := by
    rw [hKC.punchLog, hstBdef]
    show (set_size2_large_file_step st.fs st.file.inode).punchLog =
      st.fs.punchLog
    exact hpunchA
  have hinoC : stC.file.ino = st.file.ino := by
    rw [hKC.ino, hstBdef]
  have hdapB : (st.file.flags.buf_dirty = true → st.file.physblock ≠ 0) →
      stB.file.flags.buf_dirty = true → stB.file.physblock ≠ 0 := by
    intro hdap
    rw [hstBdef]
    exact hdap
  have hBinode : size = EXT2_I_SIZE st.file.inode →
      stB.file.inode = st.file.inode := by
    intro hsz
    have hlow := hI.sizeLow
    have h1 : size % 2 ^ 32 = st.file.inode.i_size := by
      rw [hsz]
      unfold EXT2_I_SIZE
      rw [Nat.add_mul_mod_self_right]
      exact Nat.mod_eq_of_lt hlow
    have h2 : size / 2 ^ 32 = st.file.inode.i_size_high := by
      rw [hsz]
      unfold EXT2_I_SIZE
      rw [Nat.add_mul_div_right _ _ (by norm_num),
          Nat.div_eq_of_lt hlow, Nat.zero_add]
    rw [hstBdef]
    dsimp only
    rw [h1, h2]
  by_cases htr : (size + st.fs.blocksize - 1) / st.fs.blocksize ≥
      (EXT2_I_SIZE st.file.inode + st.fs.blocksize - 1) / st.fs.blocksize
  · refine ⟨stC, ?_, fun _ => hplog, fun h => absurd h (by omega),
            fun hsz hdap =>
              ⟨(hinodeC (hdapB hdap)).trans (hBinode hsz), hplog⟩⟩
    unfold ext2fs_file_set_size2
    rw [if_neg (by simp [hI.magic]), if_neg hbig]
    dsimp only
    rw [if_pos hino]
    unfold ext2fs_write_inode
    dsimp only
    rw [← hstBdef, hzpEq]
    simp only [ne_eq, not_true_eq_false, ite_false]
    rw [if_pos htr]
  · refine ⟨⟨{ stC.fs with
               punchLog := (stC.file.ino,
                 (size + st.fs.blocksize - 1) / st.fs.blocksize,
                 2 ^ 64 - 1) :: stC.fs.punchLog },
             { stC.file with
               inode := { stC.file.inode with
                          mapping := fun l =>
                            if (size + st.fs.blocksize - 1) /
                                st.fs.blocksize ≤ l ∧ l ≤ 2 ^ 64 - 1 then 0
                            else stC.file.inode.mapping l } }⟩,
            ?_, fun h => absurd h htr, ?_, ?_⟩
    · unfold ext2fs_file_set_size2
      rw [if_neg (by simp [hI.magic]), if_neg hbig]
      dsimp only
      rw [if_pos hino]
      unfold ext2fs_write_inode
      dsimp only
      rw [← hstBdef, hzpEq]
      simp only [ne_eq, not_true_eq_false, ite_false]
      rw [if_neg htr]
      unfold ext2fs_punch
      dsimp only
    · intro _
      dsimp only
      rw [hinoC, hplog]
    · intro hsz _
      exfalso
      rw [hsz] at htr
      exact htr (Nat.le_refl _)

/-- C8 witness: a 3000-byte file on 1024-byte blocks — shrinking to 1000
bytes punches from block 1 through the maximum address; the same-size
and growth conclusions are carried in the same instantiation. -/
theorem C8_truncate_punch_witness :
    ∃ st', ext2fs_file_set_size2
        ⟨fs0, { file0 with inode := { inode0 with i_size := 3000 } }⟩
        1000 = (0, st') ∧
      ((1000 + fs0.blocksize - 1) / fs0.blocksize ≥
         (EXT2_I_SIZE ({ inode0 with i_size := 3000 } : Ext2Inode) +
            fs0.blocksize - 1) / fs0.blocksize →
        st'.fs.punchLog = fs0.punchLog) ∧
      ((1000 + fs0.blocksize - 1) / fs0.blocksize <
         (EXT2_I_SIZE ({ inode0 with i_size := 3000 } : Ext2Inode) +
            fs0.blocksize - 1) / fs0.blocksize →
        st'.fs.punchLog =
          (12, (1000 + fs0.blocksize - 1) / fs0.blocksize, 2 ^ 64 - 1) ::
            fs0.punchLog) ∧
      (1000 = EXT2_I_SIZE ({ inode0 with i_size := 3000 } : Ext2Inode) →
        (false = true → (0 : Nat) ≠ 0) →
        st'.file.inode = { inode0 with i_size := 3000 } ∧
        st'.fs.punchLog = fs0.punchLog) :=
  C8_truncate_punch
    ⟨fs0, { file0 with inode := { inode0 with i_size := 3000 } }⟩ 1000
    ⟨rfl, fun _ _ hl => absurd rfl hl, fun _ => Nat.le_refl 0,
     fun h => Bool.noConfusion h, fun h => Bool.noConfusion h, by decide⟩
    ⟨fun _ => rfl, fun _ => rfl, fun _ => rfl⟩
    (by decide) (by decide)

/-- C9 (amended: the call fails with the file-read-only error and leaves
the state untouched, but the reported written count is *not* zero — the
early return happens before the out-parameter is assigned, modelled by
`none`; see the counterexample): a write of any byte string through a
valid handle lacking the write flag returns the file-read-only error
with the cursor, cache, and inode snapshot unchanged and the written
count unassigned. -/
theorem C9_file_ro (st : St) (data : List Nat)
    (hm : st.file.magic = EXT2_ET_MAGIC_EXT2_FILE)
    (hw : st.file.flags.write = false) :
    ext2fs_file_write st data = (EXT2_ET_FILE_RO, st, none) := by
  unfold ext2fs_file_write
  rw [if_neg (by simp [hm]), if_pos (by simp [hw])]

/-- C9 counterexample: on a read-only handle the returned written count
is unassigned (`none`), not zero — the claim's "reported written count
is zero" does not hold. -/
theorem C9_file_ro_cex :
    (ext2fs_file_write ⟨fs0, { file0 with
        flags := { write := false, create := false,
                   buf_valid := false, buf_dirty := false } }⟩
      [1, 2, 3]).1 = EXT2_ET_FILE_RO ∧
    (ext2fs_file_write ⟨fs0, { file0 with
        flags := { write := false, create := false,
                   buf_valid := false, buf_dirty := false } }⟩
      [1, 2, 3]).2.2 = none ∧
    (ext2fs_file_write ⟨fs0, { file0 with
        flags := { write := false, create := false,
                   buf_valid := false, buf_dirty := false } }⟩
      [1, 2, 3]).2.2 ≠ some 0 :=
  ⟨rfl, rfl, by decide⟩

/-- C9 witness: the failure equation at a concrete read-only handle. -/
theorem C9_file_ro_witness :
    ext2fs_file_write ⟨fs0, { file0 with
        flags := { write := false, create := false,
                   buf_valid := false, buf_dirty := false } }⟩
      [1, 2, 3] =
      (EXT2_ET_FILE_RO, ⟨fs0, { file0 with
          flags := { write := false, create := false,
                     buf_valid := false, buf_dirty := false } }⟩,
       none) :=
  C9_file_ro ⟨fs0, { file0 with
      flags := { write := false, create := false,
                 buf_valid := false, buf_dirty := false } }⟩
    [1, 2, 3] rfl rfl

/-- C10: on a valid handle, get_lsize returns the exact 64-bit size; the
narrow get_size returns 0 whenever the size has nonzero high bits and
the size itself otherwise — and on an invalid handle get_size returns 0
while get_lsize fails — so a 0 from get_size is ambiguous between an
empty file, a too-large file, and a bad handle. -/
theorem C10_get_size_narrow (st : St) :
    (st.file.magic = EXT2_ET_MAGIC_EXT2_FILE →
      ext2fs_file_get_lsize st = .ok (EXT2_I_SIZE st.file.inode) ∧
      (EXT2_I_SIZE st.file.inode / 2 ^ 32 ≠ 0 →
        ext2fs_file_get_size st = 0) ∧
      (EXT2_I_SIZE st.file.inode / 2 ^ 32 = 0 →
        ext2fs_file_get_size st = EXT2_I_SIZE st.file.inode)) ∧
    (st.file.magic ≠ EXT2_ET_MAGIC_EXT2_FILE →
      ext2fs_file_get_size st = 0 ∧
      ext2fs_file_get_lsize st = .error EXT2_ET_MAGIC_EXT2_FILE) := by
  constructor
  · intro hm
    refine ⟨?_, ?_, ?_⟩
    · unfold ext2fs_file_get_lsize
      rw [if_neg (by simp [hm])]
    · intro hbig
      unfold ext2fs_file_get_size ext2fs_file_get_lsize
      rw [if_neg (by simp [hm])]
      dsimp only
      rw [if_pos hbig]
    · intro hsmall
      unfold ext2fs_file_get_size ext2fs_file_get_lsize
      rw [if_neg (by simp [hm])]
      dsimp only
      rw [if_neg (fun h => h hsmall)]
  · intro hm
    constructor
    · unfold ext2fs_file_get_size ext2fs_file_get_lsize
      rw [if_pos hm]
    · unfold ext2fs_file_get_lsize
      rw [if_pos hm]

/-- C10 witness: a file of exact size 2^32 — get_lsize reports it
exactly while get_size reports 0, coinciding with get_size on an empty
file. -/
theorem C10_get_size_narrow_witness :
    ext2fs_file_get_size
      ⟨fs0, { file0 with inode := { inode0 with i_size_high := 1 } }⟩ =
      0 ∧
    ext2fs_file_get_lsize
      ⟨fs0, { file0 with inode := { inode0 with i_size_high := 1 } }⟩ =
      .ok (EXT2_I_SIZE
        ({ inode0 with i_size_high := 1 } : Ext2Inode)) :=
  have h := (C10_get_size_narrow
    ⟨fs0, { file0 with
        inode := { inode0 with i_size_high := 1 } }⟩).1 rfl
  ⟨h.2.1 (by decide), h.1⟩

end Fileio
